import Mathlib

/-!
# podio: audio builder trees, their serialization, and the compile session

A shallow embedding of `builders.go` and `client.go`.

* `AudioBuilder` is the tree of the ten `...Body` variants plus the zero value
  (`audioConstruct == nil`).
* `toJson` is `AudioBuilder.toJson`: it threads the `fetchContext` it mutates and
  the number of `uuid.NewString` calls made so far.
* `Client.Compile` is the session: dial, one `WriteJSON`, then the read loop
  (`readStep` is one iteration, `readLoop` the iteration over the inbound reads).

Everything the code takes from a library (uuid, litter, encoding/json, the
websocket connection, the `io.Writer`) is a parameter of the model.
-/

namespace Podio

/-! ## Basic types -/

/-- Go `time.Duration`: a signed 64-bit count of nanoseconds. -/
abbrev Duration := Int

/-- Constant `time.Millisecond`. -/
def Millisecond : Duration := 1000000

/-- Constant `time.Second`. -/
def Second : Duration := 1000000000

/-- Method `Duration.Nanoseconds`: the duration as an `int64` nanosecond count. -/
def Duration.Nanoseconds (d : Duration) : Int := d

/-- Go `*time.Duration`: `none` is the nil pointer, `some a` points to the cell at address `a`. -/
abbrev DurationPtr := Option Nat

/-- The memory holding the caller-owned `time.Duration` cells, by address. -/
abbrev Heap := Nat → Duration

/-- Assignment `*p = v` for the non-nil pointer to address `a`. -/
def Heap.store (h : Heap) (a : Nat) (v : Duration) : Heap :=
  fun b => if b = a then v else h b

/-- Go `[]byte`. -/
abbrev Bytes := List Nat

/-- The values that `toJson` puts into a `map[string]any`.  An object keeps its fields in the
order of the source literal; Go maps themselves are unordered. -/
inductive Json where
  | null
  | str (s : String)
  | int (n : Int)
  | float (v : Float)
  | arr (items : List Json)
  | obj (fields : List (String × Json))

/-- Field access on an object (`none` on a missing key or a non-object). -/
def Json.field (j : Json) (key : String) : Option Json :=
  match j with
  | .obj fields => fields.lookup key
  | _ => none

/-- The keys of an object, in field order. -/
def Json.keys (j : Json) : List String :=
  match j with
  | .obj fields => fields.map Prod.fst
  | _ => []

/-- Predicate `j.isObject fs`: `j` is the object with exactly the fields `fs`, in any order. -/
def Json.isObject (j : Json) (fs : List (String × Json)) : Prop :=
  ∃ gs, j = .obj gs ∧ gs.Perm fs

mutual
/-- The values of all `duration_ref` fields of a document, in document order. -/
def Json.durationRefs : Json → List String
  | .arr items => Json.durationRefsArr items
  | .obj fields => Json.durationRefsObj fields
  | _ => []
/-- The `duration_ref` values of the elements of an array. -/
def Json.durationRefsArr : List Json → List String
  | [] => []
  | j :: js => Json.durationRefs j ++ Json.durationRefsArr js
/-- The `duration_ref` values of the fields of an object. -/
def Json.durationRefsObj : List (String × Json) → List String
  | [] => []
  | (k, .str s) :: fs =>
    if k = "duration_ref" then s :: Json.durationRefsObj fs else Json.durationRefsObj fs
  | (_, j) :: fs => Json.durationRefs j ++ Json.durationRefsObj fs
end

/-! ## builders.go -/

/-- The struct `AudioBuilder` with its embedded `audioConstruct`: one constructor per `...Body`
type, and `zero` for the zero value whose `audioConstruct` is nil. -/
inductive AudioBuilder where
  | zero
  | remoteBody (url : String)
  | loopBody (body : AudioBuilder) (count : Int)
  | concatBody (audios : List AudioBuilder)
  | padLeftBody (body : AudioBuilder) (duration : Duration)
  | padRightBody (body : AudioBuilder) (duration : Duration)
  | backgroundBody (body : AudioBuilder) (background : AudioBuilder)
  | volumeBody (body : AudioBuilder) (volume : Float)
  | fadeInBody (body : AudioBuilder) (duration : Duration)
  | fadeOutBody (body : AudioBuilder) (duration : Duration)
  | saveDurationBody (body : AudioBuilder) (duration : DurationPtr)

/-- Generator `Remote(url)`. -/
def Remote (url : String) : AudioBuilder := .remoteBody url

/-- Generator `Concat(audios...)`. -/
def Concat (audios : List AudioBuilder) : AudioBuilder := .concatBody audios

/-- Method `ab.Loop(count)`. -/
def AudioBuilder.Loop (ab : AudioBuilder) (count : Int) : AudioBuilder := .loopBody ab count

/-- Method `ab.PadLeft(duration)`. -/
def AudioBuilder.PadLeft (ab : AudioBuilder) (duration : Duration) : AudioBuilder :=
  .padLeftBody ab duration

/-- Method `ab.PadRight(duration)`. -/
def AudioBuilder.PadRight (ab : AudioBuilder) (duration : Duration) : AudioBuilder :=
  .padRightBody ab duration

/-- Method `ab.WithBackground(backgroundAudio)`. -/
def AudioBuilder.WithBackground (ab backgroundAudio : AudioBuilder) : AudioBuilder :=
  .backgroundBody ab backgroundAudio

/-- Method `ab.Volume(volume)`. -/
def AudioBuilder.Volume (ab : AudioBuilder) (volume : Float) : AudioBuilder :=
  .volumeBody ab volume

/-- Method `ab.FadeIn(duration)`. -/
def AudioBuilder.FadeIn (ab : AudioBuilder) (duration : Duration) : AudioBuilder :=
  .fadeInBody ab duration

/-- Method `ab.FadeOut(duration)`. -/
def AudioBuilder.FadeOut (ab : AudioBuilder) (duration : Duration) : AudioBuilder :=
  .fadeOutBody ab duration

/-- Method `ab.SaveDuration(duration)`.  (The example in its docstring ends in
`.Fetch(podio.MP3, file)`; the package defines no `Fetch`, a tree is run by `Client.Compile`.) -/
def AudioBuilder.SaveDuration (ab : AudioBuilder) (duration : DurationPtr) : AudioBuilder :=
  .saveDurationBody ab duration

/-! ## client.go: the fetch context -/

/-- Go map lookup `m[key]` in its two-result form: `none` when the key is absent. -/
def mapLookup (m : List (String × DurationPtr)) (key : String) : Option DurationPtr :=
  m.lookup key

/-- Go map assignment `m[key] = p`: the entry of `key` is replaced or created. -/
def mapAssign (m : List (String × DurationPtr)) (key : String) (p : DurationPtr) :
    List (String × DurationPtr) :=
  (key, p) :: m.filter (fun e => e.1 != key)

/-- The struct `fetchContext`; the map `durations` is a list of entries with distinct keys. -/
structure fetchContext where
  durations : List (String × DurationPtr)

/-- The keys of the map `durations`. -/
def fetchContext.keys (ctx : fetchContext) : List String := ctx.durations.map Prod.fst

/-- The library functions used by the two files. -/
structure Deps where
  /-- Function `uuid.NewString`: the token returned by its `i`-th call, counted from 0. -/
  NewString : Nat → String
  /-- Function `litter.Sdump`. -/
  Sdump : AudioBuilder → String

mutual
/-- Method `AudioBuilder.toJson`.  The state is the context and the number of tokens drawn so
far; the result is the document and the state after the call. -/
def toJson (deps : Deps) : AudioBuilder → fetchContext → Nat → Json × fetchContext × Nat
  | .remoteBody url, ctx, k => (.obj [("type", .str "remote"), ("url", .str url)], ctx, k)
  | .loopBody body count, ctx, k =>
    let (b, ctx1, k1) := toJson deps body ctx k
    (.obj [("type", .str "loop"), ("count", .int count), ("body", b)], ctx1, k1)
  | .concatBody audios, ctx, k =>
    let (arr, ctx1, k1) := toJsonRange deps audios ctx k
    (.obj [("type", .str "concat"), ("list", .arr arr)], ctx1, k1)
  | .padLeftBody body duration, ctx, k =>
    let (b, ctx1, k1) := toJson deps body ctx k
    (.obj [("type", .str "padLeft"), ("duration", .int duration.Nanoseconds), ("body", b)],
      ctx1, k1)
  | .padRightBody body duration, ctx, k =>
    let (b, ctx1, k1) := toJson deps body ctx k
    (.obj [("type", .str "padRight"), ("duration", .int duration.Nanoseconds), ("body", b)],
      ctx1, k1)
  | .backgroundBody body background, ctx, k =>
    let (b, ctx1, k1) := toJson deps body ctx k
    let (bg, ctx2, k2) := toJson deps background ctx1 k1
    (.obj [("type", .str "background"), ("body", b), ("background", bg)], ctx2, k2)
  | .volumeBody body volume, ctx, k =>
    let (b, ctx1, k1) := toJson deps body ctx k
    (.obj [("type", .str "volume"), ("body", b), ("volume", .float volume)], ctx1, k1)
  | .fadeInBody body duration, ctx, k =>
    let (b, ctx1, k1) := toJson deps body ctx k
    (.obj [("type", .str "fadeIn"), ("body", b), ("duration", .int duration.Nanoseconds)],
      ctx1, k1)
  | .fadeOutBody body duration, ctx, k =>
    let (b, ctx1, k1) := toJson deps body ctx k
    (.obj [("type", .str "fadeOut"), ("body", b), ("duration", .int duration.Nanoseconds)],
      ctx1, k1)
  | .saveDurationBody body duration, ctx, k =>
    let ref := deps.NewString k
    let ctx0 : fetchContext := ⟨mapAssign ctx.durations ref duration⟩
    let (b, ctx1, k1) := toJson deps body ctx0 (k + 1)
    (.obj [("type", .str "saveDuration"), ("body", b), ("duration_ref", .str ref)], ctx1, k1)
  | .zero, ctx, k => (.obj [("type", .str "unknown"), ("body", .str (deps.Sdump .zero))], ctx, k)
/-- The `for _, v := range op` loop of the `concatBody` case: the documents of the elements,
appended in order. -/
def toJsonRange (deps : Deps) : List AudioBuilder → fetchContext → Nat →
    List Json × fetchContext × Nat
  | [], ctx, k => ([], ctx, k)
  | v :: vs, ctx, k =>
    let (d, ctx1, k1) := toJson deps v ctx k
    let (ds, ctx2, k2) := toJsonRange deps vs ctx1 k1
    (d :: ds, ctx2, k2)
end

mutual
/-- The output pointers of the `saveDurationBody` nodes of a tree, one per occurrence, in the
order of the `duration_ref` fields of the document `toJson` builds (in a `saveDuration` object
the field `body` precedes the field `duration_ref`). -/
def AudioBuilder.slots : AudioBuilder → List DurationPtr
  | .zero => []
  | .remoteBody _ => []
  | .loopBody body _ => body.slots
  | .concatBody audios => AudioBuilder.slotsRange audios
  | .padLeftBody body _ => body.slots
  | .padRightBody body _ => body.slots
  | .backgroundBody body background => body.slots ++ background.slots
  | .volumeBody body _ => body.slots
  | .fadeInBody body _ => body.slots
  | .fadeOutBody body _ => body.slots
  | .saveDurationBody body duration => body.slots ++ [duration]
/-- The output pointers of a list of trees, in order. -/
def AudioBuilder.slotsRange : List AudioBuilder → List DurationPtr
  | [] => []
  | v :: vs => v.slots ++ AudioBuilder.slotsRange vs
end

/-! ## client.go: the compile session -/

/-- The type `Format`, a string. -/
abbrev Format := String

/-- Constant `MP3`. -/
def MP3 : Format := "mp3"

/-- Constant `WAV`. -/
def WAV : Format := "wav"

/-- Constant `OPUS`. -/
def OPUS : Format := "opus"

/-- Constant `PCM_16_LE`: PCM signed 16-bit little-endian. -/
def PCM_16_LE : Format := "s16le"

/-- The struct `Client`. -/
structure Client where
  apiKey : String

/-- Function `NewClient`. -/
def NewClient (apiKey : String) : Client := ⟨apiKey⟩

/-- Constant `websocket.TextMessage`. -/
def TextMessage : Int := 1

/-- Constant `websocket.BinaryMessage`. -/
def BinaryMessage : Int := 2

/-- Constant `websocket.CloseMessage`. -/
def CloseMessage : Int := 8

/-- Constant `websocket.CloseNormalClosure`. -/
def CloseNormalClosure : Int := 1000

/-- The anonymous struct `status` that a text frame is decoded into (field `Type` is `Typ` here,
`SaveDuration.Tag` and `SaveDuration.Dur` are `Tag` and `Dur`). -/
structure Status where
  Typ : String
  Tag : String
  Dur : Int

/-- One result of `conn.ReadMessage`: a message with its type and body, a `*websocket.CloseError`
with its code and text, or any other error. -/
inductive ReadResult where
  | message (messageType : Int) (body : Bytes)
  | closeError (code : Int) (text : String)
  | failure (err : String)

/-- The result of `websocket.DefaultDialer.DialContext`: a connection, or an error with the body
of the response when there is one. -/
inductive DialResult where
  | connected
  | failed (err : String) (resp : Option Bytes)

/-- The peer and the libraries of one `Compile` call. -/
structure Session where
  /-- The dialer, by URL. -/
  dial : String → DialResult
  /-- Method `conn.WriteJSON`: `none` when the message was sent, else the error. -/
  WriteJSON : Json → Option String
  /-- The results of the successive `conn.ReadMessage` calls that have arrived. -/
  reads : List ReadResult
  /-- Function `json.Unmarshal` into the status struct. -/
  Unmarshal : Bytes → Except String Status
  /-- The payloads of the text frames that a `conn.WriteJSON` call returning an error has put
  on the wire all the same.  `WriteJSON` opens a text writer, encodes into it and closes it
  before it returns the encoding error, so a value that does not encode (a NaN or infinite
  volume) leaves one empty text frame; a call that gets no writer leaves none. -/
  failedWrite : Json → List Bytes

/-- An `io.Writer`: given the bytes it holds so far and a payload, `none` when `Write` took the
whole payload and returned no error, `some (n, err)` when it took `n` bytes and returned `err`. -/
abbrev Writer := Bytes → Bytes → Option (Nat × String)

/-- The errors `Compile` returns, one per `fmt.Errorf` of the source. -/
inductive CompileError where
  | dialFailed (err : String) (resp : Option Bytes)
  | writeJSON (err : String)
  | unexpectedClose (code : Int) (text : String)
  | readMessage (err : String)
  | dstWrite (err : String)
  | unmarshal (err : String)
  | unknownDurationTag (tag : String)
deriving DecidableEq

/-- How a `Compile` call ends: it returns nil, returns an error, panics on a nil pointer, or is
still blocked in `conn.ReadMessage` because the peer has sent nothing more. -/
inductive Ret where
  | success
  | error (e : CompileError)
  | nilDereference
  | blocked
deriving DecidableEq

/-- The state the read loop changes: the bytes held by `dst` and the duration cells. -/
structure Mem where
  sink : Bytes
  heap : Heap

/-- One iteration of the `for` loop of `Compile`: either the loop goes on, or the call ends. -/
inductive Step where
  | next (m : Mem)
  | done (ret : Ret) (m : Mem)

/-- The body of the `for` loop of `Compile`, for one result of `conn.ReadMessage`. -/
def readStep (unmarshal : Bytes → Except String Status) (fCtx : fetchContext) (dst : Writer)
    (r : ReadResult) (m : Mem) : Step :=
  match r with
  | .closeError code text =>
    if code = CloseNormalClosure then .done .success m
    else .done (.error (.unexpectedClose code text)) m
  | .failure err => .done (.error (.readMessage err)) m
  | .message messageType body =>
    if messageType = BinaryMessage then
      match dst m.sink body with
      | some (n, err) => .done (.error (.dstWrite err)) ⟨m.sink ++ body.take n, m.heap⟩
      | none => .next ⟨m.sink ++ body, m.heap⟩
    else if messageType = TextMessage then
      match unmarshal body with
      | .error err => .done (.error (.unmarshal err)) m
      | .ok status =>
        if status.Typ = "saveDuration" then
          match mapLookup fCtx.durations status.Tag with
          | none => .done (.error (.unknownDurationTag status.Tag)) m
          | some none => .done .nilDereference m
          | some (some a) => .next ⟨m.sink, m.heap.store a status.Dur⟩
        else .next m
    else if messageType = CloseMessage then .done .success m
    else .next m

/-- The `for` loop of `Compile` over the reads that have arrived. -/
def readLoop (unmarshal : Bytes → Except String Status) (fCtx : fetchContext) (dst : Writer) :
    List ReadResult → Mem → Ret × Mem
  | [], m => (.blocked, m)
  | r :: rest, m =>
    match readStep unmarshal fCtx dst r m with
    | .next m1 => readLoop unmarshal fCtx dst rest m1
    | .done ret m1 => (ret, m1)

/-- What a `Compile` call leaves behind: how it ended, the messages it transmitted in full
(`sent`), the bytes it wrote to `dst`, the duration cells, and the payloads of the text frames
that a failed `WriteJSON` left on the wire (`stray`). -/
structure CompileResult where
  ret : Ret
  sent : List Json
  sink : Bytes
  heap : Heap
  stray : List Bytes

/-- Method `Client.Compile`, started with nothing written to `dst` yet and the duration cells
`heap`.  The `context.Context` only reaches the dialer, whose result is `net.dial`, and the
deferred `conn.Close()` has no effect on the results recorded here. -/
def Client.Compile (deps : Deps) (net : Session) (c : Client) (format : Format)
    (ab : AudioBuilder) (dst : Writer) (heap : Heap) : CompileResult :=
  let fCtx : fetchContext := ⟨[]⟩
  match net.dial ("wss://podio.poxate.com/compile?apiKey=" ++ c.apiKey) with
  | .failed err resp => ⟨.error (.dialFailed err resp), [], [], heap, []⟩
  | .connected =>
    let (body, fCtx1, _) := toJson deps ab fCtx 0
    let msg := Json.obj [("format", .str format), ("body", body)]
    match net.WriteJSON msg with
    | some err => ⟨.error (.writeJSON err), [], [], heap, net.failedWrite msg⟩
    | none =>
      let (ret, m) := readLoop net.Unmarshal fCtx1 dst net.reads ⟨[], heap⟩
      ⟨ret, [msg], m.sink, m.heap, []⟩

/-! ## Auxiliary definitions for the statements -/

/-- No token still to be drawn (index `k` or later) is a key of the map `m`. -/
def Fresh (deps : Deps) (m : List (String × DurationPtr)) (k : Nat) : Prop :=
  ∀ j, k ≤ j → deps.NewString j ∉ m.map Prod.fst

/-- An input for the concrete evaluations: the `i`-th token is `i + 1` letters `x`, and the dump
is a fixed string. -/
def sampleDeps : Deps := ⟨fun i => String.mk (List.replicate (i + 1) 'x'), fun _ => "dump"⟩

/-- The tree of the end-to-end scenario: `Remote("a").PadLeft(500ms).Volume(0.5).SaveDuration(&d)`
for the pointer `d`. -/
def scenarioTree (d : DurationPtr) : AudioBuilder :=
  (((Remote "a").PadLeft (500 * Millisecond)).Volume 0.5).SaveDuration d

/-- A session for the concrete evaluations: the dial and the send succeed, the peer delivers
`reads`, and every text body decodes to `decoded`. -/
def sampleSession (reads : List ReadResult) (decoded : Except String Status) : Session :=
  ⟨fun _ => .connected, fun _ => none, reads, fun _ => decoded, fun _ => []⟩

/-- A writer that takes every payload. -/
def sampleWriter : Writer := fun _ _ => none

/-- The state reached after the reads `pre` when every one of them lets the loop go on
(`none` as soon as one of them ends the call). -/
def readPrefix (unmarshal : Bytes → Except String Status) (fCtx : fetchContext) (dst : Writer) :
    List ReadResult → Mem → Option Mem
  | [], m => some m
  | r :: rest, m =>
    match readStep unmarshal fCtx dst r m with
    | .next m1 => readPrefix unmarshal fCtx dst rest m1
    | .done _ _ => none

/-- The bodies of the binary messages among `frames`, concatenated in order. -/
def binaryBytes (frames : List (Int × Bytes)) : Bytes :=
  ((frames.filter (fun f => f.1 = BinaryMessage)).map Prod.snd).flatten

/-- The duration that the message `f` makes the loop store in cell `a`, if any: `f` is a text
message that decodes to a `saveDuration` status whose tag the context maps to `a`. -/
def resolves (unmarshal : Bytes → Except String Status) (fCtx : fetchContext)
    (f : Int × Bytes) (a : Nat) : Option Duration :=
  if f.1 = TextMessage then
    match unmarshal f.2 with
    | .error _ => none
    | .ok status =>
      if status.Typ = "saveDuration" ∧ mapLookup fCtx.durations status.Tag = some (some a)
      then some status.Dur else none
  else none

/-- The assignments `*fCtx.durations[tag] = d` that one loop iteration performs, as pairs of
the cell and the value. -/
def readStepWrites (unmarshal : Bytes → Except String Status) (fCtx : fetchContext)
    (r : ReadResult) : List (Nat × Duration) :=
  match r with
  | .message messageType body =>
    if messageType = BinaryMessage then []
    else if messageType = TextMessage then
      match unmarshal body with
      | .error _ => []
      | .ok status =>
        if status.Typ = "saveDuration" then
          match mapLookup fCtx.durations status.Tag with
          | some (some a) => [(a, status.Dur)]
          | _ => []
        else []
    else []
  | _ => []

/-- The assignments to duration cells that the read loop performs, in order. -/
def readLoopWrites (unmarshal : Bytes → Except String Status) (fCtx : fetchContext)
    (dst : Writer) : List ReadResult → Mem → List (Nat × Duration)
  | [], _ => []
  | r :: rest, m =>
    match readStep unmarshal fCtx dst r m with
    | .next m1 => readStepWrites unmarshal fCtx r ++ readLoopWrites unmarshal fCtx dst rest m1
    | .done _ _ => readStepWrites unmarshal fCtx r

/-- The assignments to duration cells that a `Compile` call performs, in order (all of them
happen in the read loop). -/
def Client.CompileWrites (deps : Deps) (net : Session) (c : Client) (format : Format)
    (ab : AudioBuilder) (dst : Writer) (heap : Heap) : List (Nat × Duration) :=
  match net.dial ("wss://podio.poxate.com/compile?apiKey=" ++ c.apiKey) with
  | .failed _ _ => []
  | .connected =>
    match net.WriteJSON (.obj [("format", .str format), ("body", (toJson deps ab ⟨[]⟩ 0).1)]) with
    | some _ => []
    | none => readLoopWrites net.Unmarshal (toJson deps ab ⟨[]⟩ 0).2.1 dst net.reads ⟨[], heap⟩

/-- A toy decoder for the concrete evaluations: the body `[t, n]` decodes to the `saveDuration`
status whose tag is `t` letters `x` and whose duration is `n`; the body `[t]` decodes to a
status of type `progress`; any other body does not decode. -/
def sampleUnmarshal : Bytes → Except String Status
  | [t, n] => .ok ⟨"saveDuration", String.mk (List.replicate t 'x'), n⟩
  | [t] => .ok ⟨"progress", String.mk (List.replicate t 'x'), 0⟩
  | _ => .error "unexpected end of JSON input"

/-- A session for the concrete evaluations: the dial and the send succeed, the peer delivers
`reads`, and text bodies are decoded by `sampleUnmarshal`. -/
def sampleSessionOf (reads : List ReadResult) : Session :=
  ⟨fun _ => .connected, fun _ => none, reads, sampleUnmarshal, fun _ => []⟩

/-- A writer with room for three bytes: a payload that fits is taken whole, one that does not
is taken up to the limit and rejected. -/
def sampleSmallWriter : Writer :=
  fun held payload =>
    if held.length + payload.length ≤ 3 then none else some (3 - held.length, "short write")

/-- The duration that the read `r` makes the loop store in cell `a`, if any. -/
def resolvesRead (unmarshal : Bytes → Except String Status) (fCtx : fetchContext)
    (r : ReadResult) (a : Nat) : Option Duration :=
  match r with
  | .message messageType body => resolves unmarshal fCtx (messageType, body) a
  | _ => none

/-- The assignments of the list `ws` that go to cell `a`. -/
def writesTo (ws : List (Nat × Duration)) (a : Nat) : List (Nat × Duration) :=
  ws.filter (fun w => w.1 = a)

/-- The state an iteration leaves, whether the loop goes on or not. -/
def Step.mem : Step → Mem
  | .next m => m
  | .done _ m => m

mutual
/-- The document with every `duration_ref` field erased. -/
def Json.eraseRefs : Json → Json
  | .arr items => .arr (Json.eraseRefsArr items)
  | .obj fields => .obj (Json.eraseRefsObj fields)
  | .null => .null
  | .str s => .str s
  | .int n => .int n
  | .float v => .float v
/-- The elements of an array with every `duration_ref` field erased. -/
def Json.eraseRefsArr : List Json → List Json
  | [] => []
  | j :: js => j.eraseRefs :: Json.eraseRefsArr js
/-- The fields of an object without the field `duration_ref`, the `duration_ref` fields erased
in the values of the others. -/
def Json.eraseRefsObj : List (String × Json) → List (String × Json)
  | [] => []
  | (k, j) :: fs =>
    if k = "duration_ref" then Json.eraseRefsObj fs else (k, j.eraseRefs) :: Json.eraseRefsObj fs
end

mutual
/-- The number of objects in a document. -/
def Json.objects : Json → Nat
  | .arr items => Json.objectsArr items
  | .obj fields => Json.objectsObj fields + 1
  | .null => 0
  | .str _ => 0
  | .int _ => 0
  | .float _ => 0
/-- The number of objects in the elements of an array. -/
def Json.objectsArr : List Json → Nat
  | [] => 0
  | j :: js => j.objects + Json.objectsArr js
/-- The number of objects in the values of the fields of an object. -/
def Json.objectsObj : List (String × Json) → Nat
  | [] => 0
  | (_, j) :: fs => j.objects + Json.objectsObj fs
end

mutual
/-- The number of nodes of a tree, each counted once per occurrence. -/
def AudioBuilder.size : AudioBuilder → Nat
  | .zero => 1
  | .remoteBody _ => 1
  | .loopBody body _ => body.size + 1
  | .concatBody audios => AudioBuilder.sizeRange audios + 1
  | .padLeftBody body _ => body.size + 1
  | .padRightBody body _ => body.size + 1
  | .backgroundBody body background => body.size + background.size + 1
  | .volumeBody body _ => body.size + 1
  | .fadeInBody body _ => body.size + 1
  | .fadeOutBody body _ => body.size + 1
  | .saveDurationBody body _ => body.size + 1
/-- The number of nodes of a list of trees. -/
def AudioBuilder.sizeRange : List AudioBuilder → Nat
  | [] => 0
  | v :: vs => v.size + AudioBuilder.sizeRange vs
end

/-- The bytes of the text `{"type":"progress","_saveDuration":{"tag":5}}`: a status message
of type `progress` whose tag is a number. -/
def progressNumericTag : Bytes :=
  [123, 34, 116, 121, 112, 101, 34, 58, 34, 112, 114, 111, 103, 114, 101, 115, 115, 34, 44, 34,
    95, 115, 97, 118, 101, 68, 117, 114, 97, 116, 105, 111, 110, 34, 58, 123, 34, 116, 97, 103,
    34, 58, 53, 125, 125]

/-- What `json.Unmarshal` into the status struct returns on the bodies of the concrete
evaluations: the body `progressNumericTag` does not fit the struct, whose `Tag` field is a
string, and gives the type error of the decoder; the other bodies are decoded by
`sampleUnmarshal`. -/
def typedUnmarshal (body : Bytes) : Except String Status :=
  if body = progressNumericTag then
    .error "json: cannot unmarshal number into Go struct field ._saveDuration.tag of type string"
  else sampleUnmarshal body

/-- A session in which the connection is established and the send fails the way it does for a
volume that does not encode: `WriteJSON` returns the encoder error and one empty text frame
has gone out. -/
def encodeFailureSession (reads : List ReadResult) : Session :=
  ⟨fun _ => .connected, fun _ => some "json: unsupported value: NaN", reads, sampleUnmarshal,
    fun _ => [[]]⟩

/-- A session in which the dial is refused. -/
def refusedSession (reads : List ReadResult) : Session :=
  ⟨fun _ => .failed "websocket: bad handshake" none, fun _ => none, reads, sampleUnmarshal,
    fun _ => []⟩

/-! ## Serialization: the variant-to-document mapping -/


/-- C1: `toJson` follows the variant-to-document mapping.  `Remote(u)` gives
`{type:"remote", url:u}`; `t.Loop(n)` gives `{type:"loop", count:n, body:toJson(t)}`;
`PadLeft`, `PadRight`, `FadeIn`, `FadeOut` give their type, the duration as the integer number of
nanoseconds, and the body; `WithBackground` gives the body and then the background (serialized in
the state the body left); `Volume` gives the body and the volume.  Each object has exactly the
listed fields, its `type` is that of the last combinator applied, and the state after the call is
the state after the inner calls. -/
theorem toJson_variant_mapping (deps : Deps) (t bg : AudioBuilder) (u : String) (n : Int)
    (d : Duration) (v : Float) (ctx : fetchContext) (k : Nat) :
    toJson deps (Remote u) ctx k = (.obj [("type", .str "remote"), ("url", .str u)], ctx, k)
    ∧ ((toJson deps (t.Loop n) ctx k).1.isObject
          [("type", .str "loop"), ("count", .int n), ("body", (toJson deps t ctx k).1)]
        ∧ (toJson deps (t.Loop 3) ctx k).1.field "count" = some (.int 3)
        ∧ (toJson deps (t.Loop n) ctx k).2 = (toJson deps t ctx k).2)
    ∧ ((toJson deps (t.PadLeft d) ctx k).1.isObject
          [("type", .str "padLeft"), ("duration", .int d), ("body", (toJson deps t ctx k).1)]
        ∧ (toJson deps (t.PadLeft d) ctx k).2 = (toJson deps t ctx k).2)
    ∧ ((toJson deps (t.PadRight d) ctx k).1.isObject
          [("type", .str "padRight"), ("duration", .int d), ("body", (toJson deps t ctx k).1)]
        ∧ (toJson deps (t.PadRight d) ctx k).2 = (toJson deps t ctx k).2)
    ∧ ((toJson deps (t.FadeIn d) ctx k).1.isObject
          [("type", .str "fadeIn"), ("duration", .int d), ("body", (toJson deps t ctx k).1)]
        ∧ (toJson deps (t.FadeIn d) ctx k).2 = (toJson deps t ctx k).2)
    ∧ ((toJson deps (t.FadeOut d) ctx k).1.isObject
          [("type", .str "fadeOut"), ("duration", .int d), ("body", (toJson deps t ctx k).1)]
        ∧ (toJson deps (t.FadeOut d) ctx k).2 = (toJson deps t ctx k).2)
    ∧ ((toJson deps (t.WithBackground bg) ctx k).1.isObject
          [("type", .str "background"), ("body", (toJson deps t ctx k).1),
            ("background",
              (toJson deps bg (toJson deps t ctx k).2.1 (toJson deps t ctx k).2.2).1)]
        ∧ (toJson deps (t.WithBackground bg) ctx k).2
            = (toJson deps bg (toJson deps t ctx k).2.1 (toJson deps t ctx k).2.2).2)
    ∧ ((toJson deps (t.Volume v) ctx k).1.isObject
          [("type", .str "volume"), ("body", (toJson deps t ctx k).1), ("volume", .float v)]
        ∧ (toJson deps (t.Volume v) ctx k).2 = (toJson deps t ctx k).2) := by
  refine ⟨rfl, ⟨⟨_, rfl, List.Perm.refl _⟩, rfl, rfl⟩, ⟨⟨_, rfl, List.Perm.refl _⟩, rfl⟩,
    ⟨⟨_, rfl, List.Perm.refl _⟩, rfl⟩, ⟨⟨_, rfl, ?_⟩, rfl⟩, ⟨⟨_, rfl, ?_⟩, rfl⟩,
    ⟨⟨_, rfl, List.Perm.refl _⟩, rfl⟩, ⟨⟨_, rfl, List.Perm.refl _⟩, rfl⟩⟩
  · exact List.Perm.cons _ (List.Perm.swap _ _ _)
  · exact List.Perm.cons _ (List.Perm.swap _ _ _)


/-- C2, as stated, fails: the document of the scenario tree does not have type `volume` at its
root (its root is the `saveDuration` object, `SaveDuration` being the last combinator applied),
so it is not a `volume` node over a `padLeft` node over a `saveDuration` node. -/
theorem scenario_root_is_not_volume :
    ¬ ∃ b1 b2 : Json,
      (toJson sampleDeps (scenarioTree (some 0)) ⟨[]⟩ 0).1.field "type" = some (.str "volume")
      ∧ (toJson sampleDeps (scenarioTree (some 0)) ⟨[]⟩ 0).1.field "volume" = some (.float 0.5)
      ∧ (toJson sampleDeps (scenarioTree (some 0)) ⟨[]⟩ 0).1.field "body" = some b1
      ∧ b1.field "type" = some (.str "padLeft")
      ∧ b1.field "duration" = some (.int 500000000)
      ∧ b1.field "body" = some b2
      ∧ b2.field "type" = some (.str "saveDuration") := by
  rintro ⟨b1, b2, h, -⟩
  have hroot : (toJson sampleDeps (scenarioTree (some 0)) ⟨[]⟩ 0).1.field "type"
      = some (.str "saveDuration") := rfl
  rw [hroot] at h
  have hs : "saveDuration" = "volume" := by injection (Option.some.inj h)
  exact absurd hs (by decide)

/-- C2, amended: the document of the scenario tree has at its root the `saveDuration` object
carrying the token drawn for it, whose body is the `volume` object with volume 0.5, whose body
is the `padLeft` object with duration 500000000, whose body is the `remote` object of `"a"`;
the context gains the entry of that token, pointing to `d`. -/
theorem scenario_document (deps : Deps) (d : DurationPtr) (ctx : fetchContext) (k : Nat) :
    toJson deps (scenarioTree d) ctx k =
      (.obj [("type", .str "saveDuration"),
          ("body", .obj [("type", .str "volume"),
            ("body", .obj [("type", .str "padLeft"), ("duration", .int 500000000),
              ("body", .obj [("type", .str "remote"), ("url", .str "a")])]),
            ("volume", .float 0.5)]),
          ("duration_ref", .str (deps.NewString k))],
        ⟨mapAssign ctx.durations (deps.NewString k) d⟩, k + 1) := by
  rfl

/-- The elements of the array built by the `range` loop, one per tree: element `i` is the
document of tree `i`, serialized in the state left by the trees before it. -/
theorem toJsonRange_getElem (deps : Deps) (audios : List AudioBuilder) (ctx : fetchContext)
    (k i : Nat) :
    (toJsonRange deps audios ctx k).1[i]? =
      audios[i]?.map (fun a =>
        (toJson deps a (toJsonRange deps (audios.take i) ctx k).2.1
          (toJsonRange deps (audios.take i) ctx k).2.2).1) := by
  induction audios generalizing ctx k i with
  | nil => simp [toJsonRange]
  | cons v vs ih =>
    cases i with
    | zero => simp [toJsonRange]
    | succ j => simpa [toJsonRange] using ih _ _ j

/-- The array built by the `range` loop has one element per tree. -/
theorem toJsonRange_length (deps : Deps) (audios : List AudioBuilder) (ctx : fetchContext)
    (k : Nat) : (toJsonRange deps audios ctx k).1.length = audios.length := by
  induction audios generalizing ctx k with
  | nil => simp [toJsonRange]
  | cons v vs ih => simpa [toJsonRange] using ih _ _

/-- C3: `toJson(Concat(a1, ..., an))` is `{type:"concat", list:L}` where `L` has exactly `n`
elements and its `i`-th element is the serialization of `ai` (in the state the elements before
it left): same order, nothing dropped, duplicated or reordered. -/
theorem toJson_concat_in_order (deps : Deps) (audios : List AudioBuilder) (ctx : fetchContext)
    (k : Nat) :
    ∃ L : List Json,
      (toJson deps (Concat audios) ctx k).1 = .obj [("type", .str "concat"), ("list", .arr L)]
      ∧ L.length = audios.length
      ∧ ∀ i : Nat, L[i]? =
          audios[i]?.map (fun a =>
            (toJson deps a (toJsonRange deps (audios.take i) ctx k).2.1
              (toJsonRange deps (audios.take i) ctx k).2.2).1) :=
  ⟨(toJsonRange deps audios ctx k).1, rfl, toJsonRange_length deps audios ctx k,
    fun i => toJsonRange_getElem deps audios ctx k i⟩

/-- C4: `Concat()` with no argument serializes, without error, to
`{"type":"concat","list":[]}`: the field `list` is present and is the empty array, not null, and
the context (and the token counter) are left as they were. -/
theorem toJson_concat_empty (deps : Deps) (ctx : fetchContext) (k : Nat) :
    toJson deps (Concat []) ctx k
        = (.obj [("type", .str "concat"), ("list", .arr [])], ctx, k)
    ∧ (toJson deps (Concat []) ctx k).1.field "list" = some (.arr [])
    ∧ (toJson deps (Concat []) ctx k).1.field "list" ≠ some .null
    ∧ (toJson deps (Concat []) ctx k).1.keys = ["type", "list"]
    ∧ (toJson deps (Concat []) ctx k).2.1 = ctx := by
  refine ⟨rfl, rfl, ?_, rfl, rfl⟩
  intro h
  have h2 : (toJson deps (Concat []) ctx k).1.field "list" = some (.arr []) := rfl
  rw [h2] at h
  exact Json.noConfusion (Option.some.inj h)

/-! ## Serialization: tokens and the context -/

section equations
variable (deps : Deps) (body bg : AudioBuilder) (ctx : fetchContext) (k : Nat)

theorem toJson_loopBody (count : Int) :
    toJson deps (.loopBody body count) ctx k =
      (.obj [("type", .str "loop"), ("count", .int count), ("body", (toJson deps body ctx k).1)],
        (toJson deps body ctx k).2) := rfl

theorem toJson_concatBody (audios : List AudioBuilder) :
    toJson deps (.concatBody audios) ctx k =
      (.obj [("type", .str "concat"), ("list", .arr (toJsonRange deps audios ctx k).1)],
        (toJsonRange deps audios ctx k).2) := rfl

theorem toJson_padLeftBody (d : Duration) :
    toJson deps (.padLeftBody body d) ctx k =
      (.obj [("type", .str "padLeft"), ("duration", .int d), ("body", (toJson deps body ctx k).1)],
        (toJson deps body ctx k).2) := rfl

theorem toJson_padRightBody (d : Duration) :
    toJson deps (.padRightBody body d) ctx k =
      (.obj [("type", .str "padRight"), ("duration", .int d), ("body", (toJson deps body ctx k).1)],
        (toJson deps body ctx k).2) := rfl

theorem toJson_backgroundBody :
    toJson deps (.backgroundBody body bg) ctx k =
      (.obj [("type", .str "background"), ("body", (toJson deps body ctx k).1),
          ("background", (toJson deps bg (toJson deps body ctx k).2.1 (toJson deps body ctx k).2.2).1)],
        (toJson deps bg (toJson deps body ctx k).2.1 (toJson deps body ctx k).2.2).2) := rfl

theorem toJson_volumeBody (v : Float) :
    toJson deps (.volumeBody body v) ctx k =
      (.obj [("type", .str "volume"), ("body", (toJson deps body ctx k).1), ("volume", .float v)],
        (toJson deps body ctx k).2) := rfl

theorem toJson_fadeInBody (d : Duration) :
    toJson deps (.fadeInBody body d) ctx k =
      (.obj [("type", .str "fadeIn"), ("body", (toJson deps body ctx k).1), ("duration", .int d)],
        (toJson deps body ctx k).2) := rfl

theorem toJson_fadeOutBody (d : Duration) :
    toJson deps (.fadeOutBody body d) ctx k =
      (.obj [("type", .str "fadeOut"), ("body", (toJson deps body ctx k).1), ("duration", .int d)],
        (toJson deps body ctx k).2) := rfl

theorem toJson_saveDurationBody (p : DurationPtr) :
    toJson deps (.saveDurationBody body p) ctx k =
      (.obj [("type", .str "saveDuration"),
          ("body", (toJson deps body ⟨mapAssign ctx.durations (deps.NewString k) p⟩ (k + 1)).1),
          ("duration_ref", .str (deps.NewString k))],
        (toJson deps body ⟨mapAssign ctx.durations (deps.NewString k) p⟩ (k + 1)).2) := rfl

theorem toJsonRange_cons (v : AudioBuilder) (vs : List AudioBuilder) :
    toJsonRange deps (v :: vs) ctx k =
      ((toJson deps v ctx k).1 ::
          (toJsonRange deps vs (toJson deps v ctx k).2.1 (toJson deps v ctx k).2.2).1,
        (toJsonRange deps vs (toJson deps v ctx k).2.1 (toJson deps v ctx k).2.2).2) := rfl

end equations

/-- A field whose key is not `duration_ref` contributes the references of its value. -/
theorem durationRefsObj_cons_of_ne (key : String) (j : Json) (fs : List (String × Json))
    (h : key ≠ "duration_ref") :
    Json.durationRefsObj ((key, j) :: fs) = j.durationRefs ++ Json.durationRefsObj fs := by
  cases j <;> simp [Json.durationRefsObj, Json.durationRefs, h]

mutual
/-- The token counter advances by the number of `saveDurationBody` occurrences. -/
theorem toJson_counter (deps : Deps) :
    ∀ (t : AudioBuilder) (ctx : fetchContext) (k : Nat),
      (toJson deps t ctx k).2.2 = k + t.slots.length
  | .zero, _, _ => rfl
  | .remoteBody _, _, _ => rfl
  | .loopBody body _, ctx, k => by
    simpa [toJson_loopBody, AudioBuilder.slots] using toJson_counter deps body ctx k
  | .concatBody audios, ctx, k => by
    simpa [toJson_concatBody, AudioBuilder.slots] using toJsonRange_counter deps audios ctx k
  | .padLeftBody body _, ctx, k => by
    simpa [toJson_padLeftBody, AudioBuilder.slots] using toJson_counter deps body ctx k
  | .padRightBody body _, ctx, k => by
    simpa [toJson_padRightBody, AudioBuilder.slots] using toJson_counter deps body ctx k
  | .backgroundBody body bg, ctx, k => by
    rw [toJson_backgroundBody, AudioBuilder.slots, List.length_append]
    simp only []
    rw [toJson_counter deps bg, toJson_counter deps body ctx k]
    omega
  | .volumeBody body _, ctx, k => by
    simpa [toJson_volumeBody, AudioBuilder.slots] using toJson_counter deps body ctx k
  | .fadeInBody body _, ctx, k => by
    simpa [toJson_fadeInBody, AudioBuilder.slots] using toJson_counter deps body ctx k
  | .fadeOutBody body _, ctx, k => by
    simpa [toJson_fadeOutBody, AudioBuilder.slots] using toJson_counter deps body ctx k
  | .saveDurationBody body p, ctx, k => by
    rw [toJson_saveDurationBody, AudioBuilder.slots, List.length_append]
    simp only []
    rw [toJson_counter deps body]
    simp
    omega
/-- The token counter after the `range` loop. -/
theorem toJsonRange_counter (deps : Deps) :
    ∀ (audios : List AudioBuilder) (ctx : fetchContext) (k : Nat),
      (toJsonRange deps audios ctx k).2.2 = k + (AudioBuilder.slotsRange audios).length
  | [], _, _ => rfl
  | v :: vs, ctx, k => by
    rw [toJsonRange_cons, AudioBuilder.slotsRange, List.length_append]
    simp only []
    rw [toJsonRange_counter deps vs, toJson_counter deps v ctx k]
    omega
end

section docshape
variable (ty : String) (b b2 : Json)

theorem durationRefs_wrap1 (key1 : String) (x : Json) (h1 : key1 ≠ "duration_ref")
    (hx : x.durationRefs = []) :
    (Json.obj [("type", .str ty), (key1, x), ("body", b)]).durationRefs = b.durationRefs := by
  simp [Json.durationRefs, Json.durationRefsObj, durationRefsObj_cons_of_ne _ _ _ h1, hx,
    durationRefsObj_cons_of_ne "body" _ _ (by decide)]

theorem durationRefs_wrap2 (key2 : String) (x : Json) (h2 : key2 ≠ "duration_ref")
    (hx : x.durationRefs = []) :
    (Json.obj [("type", .str ty), ("body", b), (key2, x)]).durationRefs = b.durationRefs := by
  simp [Json.durationRefs, Json.durationRefsObj, durationRefsObj_cons_of_ne _ _ _ h2, hx,
    durationRefsObj_cons_of_ne "body" _ _ (by decide)]

theorem durationRefs_background :
    (Json.obj [("type", .str ty), ("body", b), ("background", b2)]).durationRefs
      = b.durationRefs ++ b2.durationRefs := by
  simp [Json.durationRefs, Json.durationRefsObj,
    durationRefsObj_cons_of_ne "background" _ _ (by decide),
    durationRefsObj_cons_of_ne "body" _ _ (by decide)]

theorem durationRefs_saveDuration (ref : String) :
    (Json.obj [("type", .str ty), ("body", b), ("duration_ref", .str ref)]).durationRefs
      = b.durationRefs ++ [ref] := by
  simp [Json.durationRefs, Json.durationRefsObj,
    durationRefsObj_cons_of_ne "body" _ _ (by decide)]

theorem durationRefs_concat (items : List Json) :
    (Json.obj [("type", .str ty), ("list", .arr items)]).durationRefs
      = Json.durationRefsArr items := by
  simp [Json.durationRefs, Json.durationRefsObj,
    durationRefsObj_cons_of_ne "list" _ _ (by decide)]

end docshape

mutual
/-- The `duration_ref` values of the document are the tokens drawn during the call. -/
theorem toJson_refs_perm (deps : Deps) :
    ∀ (t : AudioBuilder) (ctx : fetchContext) (k : Nat),
      (toJson deps t ctx k).1.durationRefs.Perm
        ((List.range' k t.slots.length).map deps.NewString)
  | .zero, _, _ => by
    simp [toJson, AudioBuilder.slots, Json.durationRefs, Json.durationRefsObj]
  | .remoteBody _, _, _ => by
    simp [toJson, AudioBuilder.slots, Json.durationRefs, Json.durationRefsObj]
  | .loopBody body _, ctx, k => by
    rw [toJson_loopBody, AudioBuilder.slots, durationRefs_wrap1 _ _ _ (.int _) (by decide) rfl]
    exact toJson_refs_perm deps body ctx k
  | .concatBody audios, ctx, k => by
    rw [toJson_concatBody, AudioBuilder.slots, durationRefs_concat]
    exact toJsonRange_refs_perm deps audios ctx k
  | .padLeftBody body _, ctx, k => by
    rw [toJson_padLeftBody, AudioBuilder.slots, durationRefs_wrap1 _ _ _ (.int _) (by decide) rfl]
    exact toJson_refs_perm deps body ctx k
  | .padRightBody body _, ctx, k => by
    rw [toJson_padRightBody, AudioBuilder.slots, durationRefs_wrap1 _ _ _ (.int _) (by decide) rfl]
    exact toJson_refs_perm deps body ctx k
  | .backgroundBody body bg, ctx, k => by
    rw [toJson_backgroundBody, AudioBuilder.slots, durationRefs_background, List.length_append,
      Nat.add_comm, ← List.range'_append_1, List.map_append]
    refine List.Perm.append (toJson_refs_perm deps body ctx k) ?_
    rw [← toJson_counter deps body ctx k]
    exact toJson_refs_perm deps bg _ _
  | .volumeBody body _, ctx, k => by
    rw [toJson_volumeBody, AudioBuilder.slots, durationRefs_wrap2 _ _ _ (.float _) (by decide) rfl]
    exact toJson_refs_perm deps body ctx k
  | .fadeInBody body _, ctx, k => by
    rw [toJson_fadeInBody, AudioBuilder.slots, durationRefs_wrap2 _ _ _ (.int _) (by decide) rfl]
    exact toJson_refs_perm deps body ctx k
  | .fadeOutBody body _, ctx, k => by
    rw [toJson_fadeOutBody, AudioBuilder.slots, durationRefs_wrap2 _ _ _ (.int _) (by decide) rfl]
    exact toJson_refs_perm deps body ctx k
  | .saveDurationBody body p, ctx, k => by
    rw [toJson_saveDurationBody, AudioBuilder.slots, durationRefs_saveDuration,
      List.length_append, List.length_singleton, List.range'_succ, List.map_cons]
    exact List.perm_append_singleton _ _ |>.trans
      (List.Perm.cons _ (toJson_refs_perm deps body _ (k + 1)))
/-- The `duration_ref` values of the array built by the `range` loop. -/
theorem toJsonRange_refs_perm (deps : Deps) :
    ∀ (audios : List AudioBuilder) (ctx : fetchContext) (k : Nat),
      (Json.durationRefsArr (toJsonRange deps audios ctx k).1).Perm
        ((List.range' k (AudioBuilder.slotsRange audios).length).map deps.NewString)
  | [], _, _ => by
    simp [toJsonRange, AudioBuilder.slotsRange, Json.durationRefsArr]
  | v :: vs, ctx, k => by
    rw [toJsonRange_cons, AudioBuilder.slotsRange, Json.durationRefsArr, List.length_append,
      Nat.add_comm, ← List.range'_append_1, List.map_append]
    refine List.Perm.append (toJson_refs_perm deps v ctx k) ?_
    rw [← toJson_counter deps v ctx k]
    exact toJsonRange_refs_perm deps vs _ _
end


/-- Assigning a key that is not in the map adds one entry and keeps the others. -/
theorem mapAssign_of_not_mem (m : List (String × DurationPtr)) (key : String) (p : DurationPtr)
    (h : key ∉ m.map Prod.fst) : mapAssign m key p = (key, p) :: m := by
  unfold mapAssign
  congr 1
  rw [List.filter_eq_self]
  intro e he
  have hne : e.1 ≠ key := fun heq => h (heq ▸ List.mem_map_of_mem Prod.fst he)
  simpa using hne

/-- The number of `duration_ref` values is the number of `saveDurationBody` occurrences. -/
theorem toJson_refs_length (deps : Deps) (t : AudioBuilder) (ctx : fetchContext) (k : Nat) :
    (toJson deps t ctx k).1.durationRefs.length = t.slots.length := by
  simpa using (toJson_refs_perm deps t ctx k).length_eq

/-- The number of `duration_ref` values in the array of the `range` loop. -/
theorem toJsonRange_refs_length (deps : Deps) (audios : List AudioBuilder) (ctx : fetchContext)
    (k : Nat) :
    (Json.durationRefsArr (toJsonRange deps audios ctx k).1).length
      = (AudioBuilder.slotsRange audios).length := by
  simpa using (toJsonRange_refs_perm deps audios ctx k).length_eq

/-- Freshness carries over a call that added the entries `zip refs slots` for tokens drawn
from index `k` on. -/
theorem fresh_after (deps : Deps) (hinj : Function.Injective deps.NewString)
    (m m1 : List (String × DurationPtr)) (k n : Nat) (refs : List String)
    (slots : List DurationPtr) (hm : Fresh deps m k)
    (hrefs : refs.Perm ((List.range' k n).map deps.NewString))
    (hm1 : m1.Perm (List.zip refs slots ++ m)) : Fresh deps m1 (k + n) := by
  intro j hj hmem
  have h1 : deps.NewString j ∈ (List.zip refs slots ++ m).map Prod.fst :=
    (hm1.map Prod.fst).subset hmem
  rw [List.map_append, List.mem_append] at h1
  rcases h1 with h1 | h1
  · obtain ⟨e, he, hej⟩ := List.mem_map.1 h1
    have he1 : e.1 ∈ refs := (List.of_mem_zip (show (e.1, e.2) ∈ List.zip refs slots from he)).1
    rw [hej] at he1
    obtain ⟨i, hi, hij⟩ := List.mem_map.1 (hrefs.subset he1)
    have : i = j := hinj hij
    rw [List.mem_range'_1] at hi
    omega
  · exact hm j (by omega) h1

mutual
/-- With distinct tokens, none of them in the context yet, the context after the call holds
the old entries and one entry per `duration_ref` of the document, pointing to the slot of the
same position. -/
theorem toJson_durations_perm (deps : Deps) (hinj : Function.Injective deps.NewString) :
    ∀ (t : AudioBuilder) (ctx : fetchContext) (k : Nat), Fresh deps ctx.durations k →
      (toJson deps t ctx k).2.1.durations.Perm
        (List.zip (toJson deps t ctx k).1.durationRefs t.slots ++ ctx.durations)
  | .zero, _, _, _ => by
    simp [toJson, AudioBuilder.slots]
  | .remoteBody _, _, _, _ => by
    simp [toJson, AudioBuilder.slots]
  | .loopBody body _, ctx, k, hf => by
    rw [toJson_loopBody, AudioBuilder.slots, durationRefs_wrap1 _ _ _ (.int _) (by decide) rfl]
    exact toJson_durations_perm deps hinj body ctx k hf
  | .concatBody audios, ctx, k, hf => by
    rw [toJson_concatBody, AudioBuilder.slots, durationRefs_concat]
    exact toJsonRange_durations_perm deps hinj audios ctx k hf
  | .padLeftBody body _, ctx, k, hf => by
    rw [toJson_padLeftBody, AudioBuilder.slots, durationRefs_wrap1 _ _ _ (.int _) (by decide) rfl]
    exact toJson_durations_perm deps hinj body ctx k hf
  | .padRightBody body _, ctx, k, hf => by
    rw [toJson_padRightBody, AudioBuilder.slots, durationRefs_wrap1 _ _ _ (.int _) (by decide) rfl]
    exact toJson_durations_perm deps hinj body ctx k hf
  | .backgroundBody body bg, ctx, k, hf => by
    have h1 := toJson_durations_perm deps hinj body ctx k hf
    have hf1 := fresh_after deps hinj _ _ k _ _ _ hf (toJson_refs_perm deps body ctx k) h1
    rw [← toJson_counter deps body ctx k] at hf1
    have h2 := toJson_durations_perm deps hinj bg _ _ hf1
    rw [toJson_backgroundBody, AudioBuilder.slots, durationRefs_background,
      List.zip_append (toJson_refs_length deps body ctx k), List.append_assoc]
    refine h2.trans ((List.Perm.append_left _ h1).trans ?_)
    rw [← List.append_assoc, ← List.append_assoc]
    exact List.Perm.append_right _ List.perm_append_comm
  | .volumeBody body _, ctx, k, hf => by
    rw [toJson_volumeBody, AudioBuilder.slots, durationRefs_wrap2 _ _ _ (.float _) (by decide) rfl]
    exact toJson_durations_perm deps hinj body ctx k hf
  | .fadeInBody body _, ctx, k, hf => by
    rw [toJson_fadeInBody, AudioBuilder.slots, durationRefs_wrap2 _ _ _ (.int _) (by decide) rfl]
    exact toJson_durations_perm deps hinj body ctx k hf
  | .fadeOutBody body _, ctx, k, hf => by
    rw [toJson_fadeOutBody, AudioBuilder.slots, durationRefs_wrap2 _ _ _ (.int _) (by decide) rfl]
    exact toJson_durations_perm deps hinj body ctx k hf
  | .saveDurationBody body p, ctx, k, hf => by
    have h0 : mapAssign ctx.durations (deps.NewString k) p = (deps.NewString k, p) :: ctx.durations :=
      mapAssign_of_not_mem _ _ _ (hf k (Nat.le_refl k))
    have hf0 : Fresh deps (mapAssign ctx.durations (deps.NewString k) p) (k + 1) := by
      intro j hj hmem
      rw [h0, List.map_cons, List.mem_cons] at hmem
      rcases hmem with hmem | hmem
      · have : j = k := hinj hmem
        omega
      · exact hf j (by omega) hmem
    have h1 := toJson_durations_perm deps hinj body ⟨mapAssign ctx.durations (deps.NewString k) p⟩
      (k + 1) hf0
    rw [toJson_saveDurationBody, AudioBuilder.slots, durationRefs_saveDuration,
      List.zip_append (toJson_refs_length deps body _ _), List.append_assoc]
    simpa [h0] using h1
/-- The context after the `range` loop, with distinct tokens none of which is in the context. -/
theorem toJsonRange_durations_perm (deps : Deps) (hinj : Function.Injective deps.NewString) :
    ∀ (audios : List AudioBuilder) (ctx : fetchContext) (k : Nat), Fresh deps ctx.durations k →
      (toJsonRange deps audios ctx k).2.1.durations.Perm
        (List.zip (Json.durationRefsArr (toJsonRange deps audios ctx k).1)
          (AudioBuilder.slotsRange audios) ++ ctx.durations)
  | [], _, _, _ => by
    simp [toJsonRange, AudioBuilder.slotsRange, Json.durationRefsArr]
  | v :: vs, ctx, k, hf => by
    have h1 := toJson_durations_perm deps hinj v ctx k hf
    have hf1 := fresh_after deps hinj _ _ k _ _ _ hf (toJson_refs_perm deps v ctx k) h1
    rw [← toJson_counter deps v ctx k] at hf1
    have h2 := toJsonRange_durations_perm deps hinj vs _ _ hf1
    rw [toJsonRange_cons, AudioBuilder.slotsRange, Json.durationRefsArr,
      List.zip_append (toJson_refs_length deps v ctx k), List.append_assoc]
    refine h2.trans ((List.Perm.append_left _ h1).trans ?_)
    rw [← List.append_assoc, ← List.append_assoc]
    exact List.Perm.append_right _ List.perm_append_comm
end


/-- In a map with distinct keys, an entry that is present is the one a lookup finds. -/
theorem mapLookup_of_mem (m : List (String × DurationPtr)) (key : String) (p : DurationPtr)
    (hnd : (m.map Prod.fst).Nodup) (h : (key, p) ∈ m) : mapLookup m key = some p := by
  induction m with
  | nil => simp at h
  | cons e es ih =>
    rw [List.map_cons, List.nodup_cons] at hnd
    rcases List.mem_cons.1 h with h1 | h1
    · subst h1
      simp [mapLookup, List.lookup]
    · have hne : key ≠ e.1 := fun heq => hnd.1 (heq ▸ List.mem_map_of_mem Prod.fst h1)
      have hb : (key == e.1) = false := by simpa using hne
      obtain ⟨e1, e2⟩ := e
      simp only [mapLookup, List.lookup] at ih ⊢
      rw [hb]
      exact ih hnd.2 h1

/-- With distinct tokens, the `duration_ref` values of a document are pairwise distinct. -/
theorem toJson_refs_nodup (deps : Deps) (hinj : Function.Injective deps.NewString)
    (t : AudioBuilder) (ctx : fetchContext) (k : Nat) :
    (toJson deps t ctx k).1.durationRefs.Nodup :=
  (toJson_refs_perm deps t ctx k).nodup_iff.2 ((List.nodup_range' k _).map hinj)

/-- Starting from the empty context, the entries after the call are, up to order, the pairs of
a `duration_ref` value and the slot at the same position. -/
theorem toJson_empty_durations_perm (deps : Deps) (hinj : Function.Injective deps.NewString)
    (t : AudioBuilder) (k : Nat) :
    (toJson deps t ⟨[]⟩ k).2.1.durations.Perm
      (List.zip (toJson deps t ⟨[]⟩ k).1.durationRefs t.slots) := by
  have h := toJson_durations_perm deps hinj t ⟨[]⟩ k (fun j _ hmem => by simp at hmem)
  simpa using h

/-- Starting from the empty context, the keys after the call are the `duration_ref` values. -/
theorem toJson_empty_keys_perm (deps : Deps) (hinj : Function.Injective deps.NewString)
    (t : AudioBuilder) (k : Nat) :
    (toJson deps t ⟨[]⟩ k).2.1.keys.Perm (toJson deps t ⟨[]⟩ k).1.durationRefs := by
  have h := (toJson_empty_durations_perm deps hinj t k).map Prod.fst
  rwa [List.map_fst_zip _ _ (toJson_refs_length deps t ⟨[]⟩ k).le] at h

/-- Starting from the empty context, the token at position `i` of the document is mapped to
the slot at position `i` of the tree. -/
theorem toJson_empty_lookup (deps : Deps) (hinj : Function.Injective deps.NewString)
    (t : AudioBuilder) (k i : Nat) (tok : String) (p : DurationPtr)
    (htok : (toJson deps t ⟨[]⟩ k).1.durationRefs[i]? = some tok)
    (hslot : t.slots[i]? = some p) :
    mapLookup (toJson deps t ⟨[]⟩ k).2.1.durations tok = some p := by
  apply mapLookup_of_mem
  · exact (toJson_empty_keys_perm deps hinj t k).nodup_iff.2 (toJson_refs_nodup deps hinj t _ k)
  · apply (toJson_empty_durations_perm deps hinj t k).symm.subset
    exact List.getElem?_mem (List.getElem?_zip_eq_some.2 ⟨htok, hslot⟩)

/-- The sample token generator returns pairwise distinct tokens. -/
theorem sampleDeps_injective : Function.Injective sampleDeps.NewString := by
  intro a b h
  have h1 : (String.mk (List.replicate (a + 1) 'x')).length
      = (String.mk (List.replicate (b + 1) 'x')).length := congrArg String.length h
  simpa [String.length] using h1

/-- C5: serializing a tree into the empty context with a token generator that returns pairwise
distinct tokens, the keys of the resulting context are exactly the values of the
`duration_ref` fields of the document, there are as many `duration_ref` values as
`SaveDuration` nodes, and the context maps the token of each `saveDuration` object (the `i`-th of
the document) to the output pointer of the `SaveDuration` node it was produced from (the `i`-th
of the tree). -/
theorem toJson_context_matches_refs (deps : Deps) (hinj : Function.Injective deps.NewString)
    (t : AudioBuilder) (k : Nat) :
    (∀ tok : String, tok ∈ (toJson deps t ⟨[]⟩ k).2.1.keys
        ↔ tok ∈ (toJson deps t ⟨[]⟩ k).1.durationRefs)
    ∧ (toJson deps t ⟨[]⟩ k).1.durationRefs.length = t.slots.length
    ∧ ∀ (i : Nat) (tok : String) (p : DurationPtr),
        (toJson deps t ⟨[]⟩ k).1.durationRefs[i]? = some tok → t.slots[i]? = some p →
          mapLookup (toJson deps t ⟨[]⟩ k).2.1.durations tok = some p :=
  ⟨fun _ => (toJson_empty_keys_perm deps hinj t k).mem_iff, toJson_refs_length deps t _ k,
    fun i tok p htok hslot => toJson_empty_lookup deps hinj t k i tok p htok hslot⟩

/-- C5 at `Concat(Remote("a").SaveDuration(&d7), Remote("b").SaveDuration(&d9))` with the sample
tokens: the tokens `x` and `xx` are the keys, and they point to cells 7 and 9. -/
theorem toJson_context_matches_refs_witness :
    Function.Injective sampleDeps.NewString
    ∧ (toJson sampleDeps (Concat [(Remote "a").SaveDuration (some 7),
          (Remote "b").SaveDuration (some 9)]) ⟨[]⟩ 0).1.durationRefs = ["x", "xx"]
    ∧ mapLookup (toJson sampleDeps (Concat [(Remote "a").SaveDuration (some 7),
          (Remote "b").SaveDuration (some 9)]) ⟨[]⟩ 0).2.1.durations "xx" = some (some 9) :=
  ⟨sampleDeps_injective, by decide,
    (toJson_context_matches_refs sampleDeps sampleDeps_injective
      (Concat [(Remote "a").SaveDuration (some 7), (Remote "b").SaveDuration (some 9)]) 0).2.2
      1 "xx" (some 9) (by decide) (by decide)⟩

/-- C6: within one pass with pairwise distinct tokens, the `duration_ref` values of the document
are pairwise distinct, and there is exactly one of them, and one context entry, per occurrence of
a `SaveDuration` node; a `SaveDuration` subtree used twice, as in
`x := Remote(u).SaveDuration(&d); Concat(x, x)`, yields two different tokens that both map to
the cell `d`. -/
theorem toJson_refs_distinct (deps : Deps) (hinj : Function.Injective deps.NewString)
    (t : AudioBuilder) (k : Nat) (u : String) (d : Nat) :
    (toJson deps t ⟨[]⟩ k).1.durationRefs.Nodup
    ∧ (toJson deps t ⟨[]⟩ k).1.durationRefs.length = t.slots.length
    ∧ (toJson deps t ⟨[]⟩ k).2.1.durations.length = t.slots.length
    ∧ (toJson deps (Concat [(Remote u).SaveDuration (some d), (Remote u).SaveDuration (some d)])
          ⟨[]⟩ k).1.durationRefs = [deps.NewString k, deps.NewString (k + 1)]
    ∧ deps.NewString k ≠ deps.NewString (k + 1)
    ∧ mapLookup (toJson deps (Concat [(Remote u).SaveDuration (some d),
          (Remote u).SaveDuration (some d)]) ⟨[]⟩ k).2.1.durations (deps.NewString k)
        = some (some d)
    ∧ mapLookup (toJson deps (Concat [(Remote u).SaveDuration (some d),
          (Remote u).SaveDuration (some d)]) ⟨[]⟩ k).2.1.durations (deps.NewString (k + 1))
        = some (some d) := by
  have hne : deps.NewString k ≠ deps.NewString (k + 1) := fun h => by
    have := hinj h
    omega
  have hrefs : (toJson deps (Concat [(Remote u).SaveDuration (some d),
      (Remote u).SaveDuration (some d)]) ⟨[]⟩ k).1.durationRefs
      = [deps.NewString k, deps.NewString (k + 1)] := by
    simp [Concat, Remote, AudioBuilder.SaveDuration, toJson, toJsonRange, Json.durationRefs,
      Json.durationRefsObj, Json.durationRefsArr]
  refine ⟨toJson_refs_nodup deps hinj t _ k, toJson_refs_length deps t _ k, ?_, hrefs, hne, ?_, ?_⟩
  · rw [(toJson_empty_durations_perm deps hinj t k).length_eq, List.length_zip,
      toJson_refs_length, Nat.min_self]
  · exact toJson_empty_lookup deps hinj _ k 0 _ _ (by rw [hrefs]; rfl) rfl
  · exact toJson_empty_lookup deps hinj _ k 1 _ _ (by rw [hrefs]; rfl) rfl

/-- C6 with the sample tokens, at `x := Remote("a").SaveDuration(&d3)` and the tree
`Concat(x, x)`: the two tokens are `x` and `xx`, and both point to cell 3. -/
theorem toJson_refs_distinct_witness :
    Function.Injective sampleDeps.NewString
    ∧ (toJson sampleDeps (Concat [(Remote "a").SaveDuration (some 3),
          (Remote "a").SaveDuration (some 3)]) ⟨[]⟩ 0).2.1.durations
        = [("xx", some 3), ("x", some 3)]
    ∧ (toJson sampleDeps (Concat [(Remote "a").SaveDuration (some 3),
          (Remote "a").SaveDuration (some 3)]) ⟨[]⟩ 0).1.durationRefs.Nodup :=
  ⟨sampleDeps_injective, by decide,
    (toJson_refs_distinct sampleDeps sampleDeps_injective
      (Concat [(Remote "a").SaveDuration (some 3), (Remote "a").SaveDuration (some 3)]) 0 "a" 3).1⟩

/-! ## The compile session -/

/-- Once the dial and the `WriteJSON` succeed, `Compile` is the read loop run with the context
that `toJson` filled, and the one message sent is `{format, body}`. -/
theorem Compile_connected (deps : Deps) (net : Session) (c : Client) (format : Format)
    (ab : AudioBuilder) (dst : Writer) (heap : Heap)
    (hdial : net.dial ("wss://podio.poxate.com/compile?apiKey=" ++ c.apiKey) = .connected)
    (hsend : net.WriteJSON
      (.obj [("format", .str format), ("body", (toJson deps ab ⟨[]⟩ 0).1)]) = none) :
    Client.Compile deps net c format ab dst heap =
      ⟨(readLoop net.Unmarshal (toJson deps ab ⟨[]⟩ 0).2.1 dst net.reads ⟨[], heap⟩).1,
        [.obj [("format", .str format), ("body", (toJson deps ab ⟨[]⟩ 0).1)]],
        (readLoop net.Unmarshal (toJson deps ab ⟨[]⟩ 0).2.1 dst net.reads ⟨[], heap⟩).2.sink,
        (readLoop net.Unmarshal (toJson deps ab ⟨[]⟩ 0).2.1 dst net.reads ⟨[], heap⟩).2.heap,
        []⟩ := by
  unfold Client.Compile
  simp only [hdial, hsend]

/-- A call that returns nil got its connection and sent its message. -/
theorem Compile_success_connected (deps : Deps) (net : Session) (c : Client) (format : Format)
    (ab : AudioBuilder) (dst : Writer) (heap : Heap)
    (hok : (Client.Compile deps net c format ab dst heap).ret = .success) :
    net.dial ("wss://podio.poxate.com/compile?apiKey=" ++ c.apiKey) = .connected
    ∧ net.WriteJSON (.obj [("format", .str format), ("body", (toJson deps ab ⟨[]⟩ 0).1)])
        = none := by
  unfold Client.Compile at hok
  cases hd : net.dial ("wss://podio.poxate.com/compile?apiKey=" ++ c.apiKey) with
  | failed err resp => simp [hd] at hok
  | connected =>
    refine ⟨rfl, ?_⟩
    cases hw : net.WriteJSON
        (.obj [("format", .str format), ("body", (toJson deps ab ⟨[]⟩ 0).1)]) with
    | none => rfl
    | some err => simp [hd, hw] at hok

/-- A text frame that decodes to a `saveDuration` status whose tag is mapped to the cell `a`
stores the decoded duration in `a` and lets the loop go on, the sink untouched. -/
theorem readStep_text_saveDuration (unmarshal : Bytes → Except String Status)
    (fCtx : fetchContext) (dst : Writer) (body : Bytes) (m : Mem) (tag : String) (a : Nat)
    (n : Int) (hdec : unmarshal body = .ok ⟨"saveDuration", tag, n⟩)
    (hkey : mapLookup fCtx.durations tag = some (some a)) :
    readStep unmarshal fCtx dst (.message TextMessage body) m
      = .next ⟨m.sink, m.heap.store a n⟩ := by
  simp [readStep, TextMessage, BinaryMessage, hdec, hkey]

/-- The loop goes on after an iteration that does not end the call. -/
theorem readLoop_next (unmarshal : Bytes → Except String Status) (fCtx : fetchContext)
    (dst : Writer) (r : ReadResult) (rest : List ReadResult) (m m1 : Mem)
    (hs : readStep unmarshal fCtx dst r m = .next m1) :
    readLoop unmarshal fCtx dst (r :: rest) m = readLoop unmarshal fCtx dst rest m1 := by
  rw [readLoop, hs]

/-- The loop stops at an iteration that ends the call. -/
theorem readLoop_done (unmarshal : Bytes → Except String Status) (fCtx : fetchContext)
    (dst : Writer) (r : ReadResult) (rest : List ReadResult) (m m1 : Mem) (ret : Ret)
    (hs : readStep unmarshal fCtx dst r m = .done ret m1) :
    readLoop unmarshal fCtx dst (r :: rest) m = (ret, m1) := by
  rw [readLoop, hs]

/-- An iteration on a message that lets the loop go on appends the body to the sink when the
message is binary, and leaves the sink as it is otherwise. -/
theorem readStep_message_next_sink (unmarshal : Bytes → Except String Status)
    (fCtx : fetchContext) (dst : Writer) (messageType : Int) (body : Bytes) (m m1 : Mem)
    (hs : readStep unmarshal fCtx dst (.message messageType body) m = .next m1) :
    m1.sink = m.sink ++ (if messageType = BinaryMessage then body else []) := by
  simp only [readStep] at hs
  split at hs
  all_goals try split at hs
  all_goals try split at hs
  all_goals try split at hs
  all_goals try split at hs
  all_goals simp_all
  all_goals subst hs
  all_goals simp

/-- An iteration on a message ends the call in success only for the close message type. -/
theorem readStep_message_done_success (unmarshal : Bytes → Except String Status)
    (fCtx : fetchContext) (dst : Writer) (messageType : Int) (body : Bytes) (m m1 : Mem)
    (hs : readStep unmarshal fCtx dst (.message messageType body) m = .done .success m1) :
    messageType = CloseMessage := by
  simp only [readStep] at hs
  split at hs
  all_goals try split at hs
  all_goals try split at hs
  all_goals try split at hs
  all_goals try split at hs
  all_goals simp_all

/-- If the read loop, fed messages none of which has the close message type and then a normal
close, ends in success, the sink has gained the bodies of the binary messages, in order. -/
theorem readLoop_sink (unmarshal : Bytes → Except String Status) (fCtx : fetchContext)
    (dst : Writer) (frames : List (Int × Bytes)) (text : String) (rest : List ReadResult)
    (hdata : ∀ f ∈ frames, f.1 ≠ CloseMessage) (m : Mem)
    (hok : (readLoop unmarshal fCtx dst
      (frames.map (fun f => ReadResult.message f.1 f.2)
        ++ .closeError CloseNormalClosure text :: rest) m).1 = .success) :
    (readLoop unmarshal fCtx dst
      (frames.map (fun f => ReadResult.message f.1 f.2)
        ++ .closeError CloseNormalClosure text :: rest) m).2.sink
      = m.sink ++ ((frames.filter (fun f => f.1 = BinaryMessage)).map Prod.snd).flatten := by
  induction frames generalizing m with
  | nil =>
    have hs : readStep unmarshal fCtx dst (.closeError CloseNormalClosure text) m
        = .done .success m := by simp [readStep]
    simp [readLoop_done _ _ _ _ _ _ _ _ hs]
  | cons f fs ih =>
    have hf : f.1 ≠ CloseMessage := hdata f (List.mem_cons_self _ _)
    have hfs : ∀ g ∈ fs, g.1 ≠ CloseMessage := fun g hg => hdata g (List.mem_cons_of_mem _ hg)
    rw [List.map_cons, List.cons_append] at hok ⊢
    cases hs : readStep unmarshal fCtx dst (.message f.1 f.2) m with
    | next m1 =>
      rw [readLoop_next _ _ _ _ _ _ _ hs] at hok ⊢
      rw [ih hfs m1 hok, readStep_message_next_sink _ _ _ _ _ _ _ hs]
      by_cases hb : f.1 = BinaryMessage <;> simp [List.filter_cons, hb]
    | done ret m1 =>
      rw [readLoop_done _ _ _ _ _ _ _ _ hs] at hok
      simp only at hok
      subst hok
      exact absurd (readStep_message_done_success _ _ _ _ _ _ _ hs) hf

/-- C7, as stated, fails: `Remote("a").Loop(-1)` is not rejected.  `toJson` produces the `loop`
object with count -1, and a `Compile` call that gets its connection transmits that document and
returns nil. -/
theorem loop_negative_count_is_transmitted :
    (toJson sampleDeps ((Remote "a").Loop (-1)) ⟨[]⟩ 0).1
        = .obj [("type", .str "loop"), ("count", .int (-1)),
            ("body", .obj [("type", .str "remote"), ("url", .str "a")])]
    ∧ (Client.Compile sampleDeps (sampleSession [.closeError CloseNormalClosure ""] (.error ""))
          ⟨"key"⟩ MP3 ((Remote "a").Loop (-1)) sampleWriter (fun _ => 0)).sent
        = [.obj [("format", .str "mp3"),
            ("body", .obj [("type", .str "loop"), ("count", .int (-1)),
              ("body", .obj [("type", .str "remote"), ("url", .str "a")])])]]
    ∧ (Client.Compile sampleDeps (sampleSession [.closeError CloseNormalClosure ""] (.error ""))
          ⟨"key"⟩ MP3 ((Remote "a").Loop (-1)) sampleWriter (fun _ => 0)).ret = .success :=
  ⟨rfl, rfl, rfl⟩

/-- C7, amended: for every tree `t` and every integer `n`, negative ones included, `t.Loop(n)`
is serialized as it is: `toJson` emits the `loop` object with count `n`, and `Compile`, once the
dial and the send succeed, has transmitted exactly the message whose body is that object.
Nothing checks the count. -/
theorem Compile_sends_loop_count_unchecked (deps : Deps) (net : Session) (c : Client)
    (format : Format) (t : AudioBuilder) (n : Int) (dst : Writer) (heap : Heap)
    (hdial : net.dial ("wss://podio.poxate.com/compile?apiKey=" ++ c.apiKey) = .connected)
    (hsend : net.WriteJSON
      (.obj [("format", .str format), ("body", (toJson deps (t.Loop n) ⟨[]⟩ 0).1)]) = none) :
    (toJson deps (t.Loop n) ⟨[]⟩ 0).1
        = .obj [("type", .str "loop"), ("count", .int n), ("body", (toJson deps t ⟨[]⟩ 0).1)]
    ∧ (Client.Compile deps net c format (t.Loop n) dst heap).sent
        = [.obj [("format", .str format),
            ("body", .obj [("type", .str "loop"), ("count", .int n),
              ("body", (toJson deps t ⟨[]⟩ 0).1)])]] := by
  refine ⟨rfl, ?_⟩
  rw [Compile_connected deps net c format (t.Loop n) dst heap hdial hsend]
  rfl

/-- C7 amended, at `Remote("a").Loop(-5)` with the sample session. -/
theorem Compile_sends_loop_count_unchecked_witness :
    (Client.Compile sampleDeps (sampleSession [] (.error "")) ⟨"key"⟩ WAV
        ((Remote "a").Loop (-5)) sampleWriter (fun _ => 0)).sent
      = [.obj [("format", .str "wav"),
          ("body", .obj [("type", .str "loop"), ("count", .int (-5)),
            ("body", .obj [("type", .str "remote"), ("url", .str "a")])])]] :=
  (Compile_sends_loop_count_unchecked sampleDeps (sampleSession [] (.error "")) ⟨"key"⟩ WAV
    (Remote "a") (-5) sampleWriter (fun _ => 0) rfl rfl).2

/-- C8: when the inbound sequence is a list of frames (none of the close message type) followed
by a normal close, and the call returns nil, the bytes written to the sink are exactly the
bodies of the binary frames, concatenated in arrival order; text frames and frames of any other
type contribute nothing. -/
theorem Compile_sink_is_binary_concat (deps : Deps) (net : Session) (c : Client)
    (format : Format) (ab : AudioBuilder) (dst : Writer) (heap : Heap)
    (frames : List (Int × Bytes)) (text : String) (rest : List ReadResult)
    (hreads : net.reads = frames.map (fun f => ReadResult.message f.1 f.2)
      ++ .closeError CloseNormalClosure text :: rest)
    (hdata : ∀ f ∈ frames, f.1 ≠ CloseMessage)
    (hok : (Client.Compile deps net c format ab dst heap).ret = .success) :
    (Client.Compile deps net c format ab dst heap).sink
      = ((frames.filter (fun f => f.1 = BinaryMessage)).map Prod.snd).flatten := by
  obtain ⟨hdial, hsend⟩ := Compile_success_connected deps net c format ab dst heap hok
  rw [Compile_connected deps net c format ab dst heap hdial hsend] at hok ⊢
  simp only [hreads] at hok ⊢
  simpa using readLoop_sink net.Unmarshal _ dst frames text rest hdata ⟨[], heap⟩ hok

/-- C8 at the frames binary `[1, 2]`, text `[7]`, binary `[3]`, then a normal close: the sink
holds `[1, 2, 3]`. -/
theorem Compile_sink_is_binary_concat_witness :
    (Client.Compile sampleDeps
        (sampleSession [.message BinaryMessage [1, 2], .message TextMessage [7],
          .message BinaryMessage [3], .closeError CloseNormalClosure "done"]
          (.ok ⟨"progress", "", 0⟩))
        ⟨"key"⟩ MP3 (Remote "a") sampleWriter (fun _ => 0)).ret = .success
    ∧ (Client.Compile sampleDeps
        (sampleSession [.message BinaryMessage [1, 2], .message TextMessage [7],
          .message BinaryMessage [3], .closeError CloseNormalClosure "done"]
          (.ok ⟨"progress", "", 0⟩))
        ⟨"key"⟩ MP3 (Remote "a") sampleWriter (fun _ => 0)).sink = [1, 2, 3] :=
  ⟨by decide,
    Compile_sink_is_binary_concat sampleDeps
      (sampleSession [.message BinaryMessage [1, 2], .message TextMessage [7],
        .message BinaryMessage [3], .closeError CloseNormalClosure "done"]
        (.ok ⟨"progress", "", 0⟩))
      ⟨"key"⟩ MP3 (Remote "a") sampleWriter (fun _ => 0)
      [(BinaryMessage, [1, 2]), (TextMessage, [7]), (BinaryMessage, [3])] "done" [] rfl
      (by decide) (by decide)⟩

/-- C9, as stated, fails for a key whose entry is the nil pointer.  The tree
`Remote("a").SaveDuration(nil)` puts the token `x` into the context with a nil pointer; the
iteration on a `saveDuration` frame with the tag `x` then dereferences nil, so it does not go
on to the next read, and the call ends in the panic instead of returning. -/
theorem nil_slot_is_dereferenced :
    "x" ∈ (toJson sampleDeps ((Remote "a").SaveDuration none) ⟨[]⟩ 0).2.1.keys
    ∧ readStep sampleUnmarshal (toJson sampleDeps ((Remote "a").SaveDuration none) ⟨[]⟩ 0).2.1
        sampleWriter (.message TextMessage [1, 5]) ⟨[], fun _ => 0⟩
      = .done .nilDereference ⟨[], fun _ => 0⟩
    ∧ (¬ ∃ m1 : Mem,
        readStep sampleUnmarshal (toJson sampleDeps ((Remote "a").SaveDuration none) ⟨[]⟩ 0).2.1
          sampleWriter (.message TextMessage [1, 5]) ⟨[], fun _ => 0⟩ = .next m1)
    ∧ (Client.Compile sampleDeps
        (sampleSessionOf [.message TextMessage [1, 5], .closeError CloseNormalClosure ""])
        ⟨"key"⟩ MP3 ((Remote "a").SaveDuration none) sampleWriter (fun _ => 0)).ret
      = .nilDereference := by
  have hstep : readStep sampleUnmarshal
      (toJson sampleDeps ((Remote "a").SaveDuration none) ⟨[]⟩ 0).2.1
      sampleWriter (.message TextMessage [1, 5]) ⟨[], fun _ => 0⟩
      = .done .nilDereference ⟨[], fun _ => 0⟩ := rfl
  refine ⟨by decide, hstep, ?_, by decide⟩
  rintro ⟨m1, h⟩
  rw [hstep] at h
  exact Step.noConfusion h

/-- C9, amended: for every context, every tag that the context maps to a non-nil pointer, to
the output cell `a`, and every integer `n`, the loop iteration on a text frame that decodes to
`{type:"saveDuration", _saveDuration:{tag, duration:n}}` raises no error (the loop goes on),
leaves the sink unchanged, sets cell `a` to exactly `n` nanoseconds and leaves every other cell
unchanged. -/
theorem readStep_saveDuration_sets_slot (unmarshal : Bytes → Except String Status)
    (fCtx : fetchContext) (dst : Writer) (body : Bytes) (m : Mem) (tag : String) (a : Nat)
    (n : Int) (hdec : unmarshal body = .ok ⟨"saveDuration", tag, n⟩)
    (hkey : mapLookup fCtx.durations tag = some (some a)) :
    ∃ m1 : Mem,
      readStep unmarshal fCtx dst (.message TextMessage body) m = .next m1
      ∧ m1.sink = m.sink
      ∧ m1.heap a = n
      ∧ ∀ b : Nat, b ≠ a → m1.heap b = m.heap b := by
  refine ⟨⟨m.sink, m.heap.store a n⟩,
    readStep_text_saveDuration unmarshal fCtx dst body m tag a n hdec hkey, rfl, ?_, ?_⟩
  · simp [Heap.store]
  · intro b hb
    simp [Heap.store, hb]

/-- C9 amended, at the context `{"t1": &cell 4, "t2": &cell 5}`, tag `t2` and duration 1500: cell 5
becomes 1500, cell 4 and the sink stay as they were. -/
theorem readStep_saveDuration_sets_slot_witness :
    ∃ m1 : Mem,
      readStep (fun _ => .ok ⟨"saveDuration", "t2", 1500⟩)
          ⟨[("t1", some 4), ("t2", some 5)]⟩ sampleWriter (.message TextMessage [])
          ⟨[9], fun _ => 0⟩ = .next m1
      ∧ m1.sink = [9]
      ∧ m1.heap 5 = 1500
      ∧ ∀ b : Nat, b ≠ 5 → m1.heap b = 0 :=
  readStep_saveDuration_sets_slot (fun _ => .ok ⟨"saveDuration", "t2", 1500⟩)
    ⟨[("t1", some 4), ("t2", some 5)]⟩ sampleWriter [] ⟨[9], fun _ => 0⟩ "t2" 5 1500 rfl
    (by decide)

/-- C10: end to end, with pairwise distinct tokens.  Let the tree hold a `SaveDuration` node
with output cell `a` (the `i`-th of the tree), and let `tok` be the token serialization put in
the `saveDuration` object of that node (the `i`-th `duration_ref` of the document).  If the dial
and the send succeed and the peer sends one text frame decoding to the `saveDuration` status
with tag `tok` and duration `n`, then a normal close, `Compile` returns nil and cell `a` holds
`n` nanoseconds. -/
theorem Compile_resolves_duration (deps : Deps) (hinj : Function.Injective deps.NewString)
    (net : Session) (c : Client) (format : Format) (t : AudioBuilder) (dst : Writer)
    (heap : Heap) (i a : Nat) (tok : String) (n : Int) (body : Bytes) (text : String)
    (hslot : t.slots[i]? = some (some a))
    (htok : (toJson deps t ⟨[]⟩ 0).1.durationRefs[i]? = some tok)
    (hdial : net.dial ("wss://podio.poxate.com/compile?apiKey=" ++ c.apiKey) = .connected)
    (hsend : net.WriteJSON
      (.obj [("format", .str format), ("body", (toJson deps t ⟨[]⟩ 0).1)]) = none)
    (hreads : net.reads = [.message TextMessage body, .closeError CloseNormalClosure text])
    (hdec : net.Unmarshal body = .ok ⟨"saveDuration", tok, n⟩) :
    (Client.Compile deps net c format t dst heap).ret = .success
    ∧ (Client.Compile deps net c format t dst heap).heap a = n := by
  have hkey := toJson_empty_lookup deps hinj t 0 i tok (some a) htok hslot
  have h1 := readStep_text_saveDuration net.Unmarshal (toJson deps t ⟨[]⟩ 0).2.1 dst body
    ⟨[], heap⟩ tok a n hdec hkey
  have h2 : readStep net.Unmarshal (toJson deps t ⟨[]⟩ 0).2.1 dst
      (.closeError CloseNormalClosure text) ⟨[], heap.store a n⟩
      = .done .success ⟨[], heap.store a n⟩ := by simp [readStep]
  rw [Compile_connected deps net c format t dst heap hdial hsend, hreads,
    readLoop_next _ _ _ _ _ _ _ h1, readLoop_done _ _ _ _ _ _ _ _ h2]
  simp [Heap.store]

/-- C10 at the scenario: the tree `Remote("a").PadLeft(500ms).Volume(0.5).SaveDuration(&d)`,
format `wav`, one `saveDuration` frame with the generated token and duration 1,200,000,000 ns,
then a normal close: the call returns nil and `d` is 1.2 seconds. -/
theorem Compile_resolves_duration_witness :
    Function.Injective sampleDeps.NewString
    ∧ (toJson sampleDeps (scenarioTree (some 0)) ⟨[]⟩ 0).1.durationRefs[0]? = some "x"
    ∧ (Client.Compile sampleDeps
        (sampleSession [.message TextMessage [], .closeError CloseNormalClosure ""]
          (.ok ⟨"saveDuration", "x", 1200000000⟩))
        ⟨"key"⟩ WAV (scenarioTree (some 0)) sampleWriter (fun _ => 0)).ret = .success
    ∧ (Client.Compile sampleDeps
        (sampleSession [.message TextMessage [], .closeError CloseNormalClosure ""]
          (.ok ⟨"saveDuration", "x", 1200000000⟩))
        ⟨"key"⟩ WAV (scenarioTree (some 0)) sampleWriter (fun _ => 0)).heap 0
        = Second + 200 * Millisecond :=
  ⟨sampleDeps_injective, by decide,
    Compile_resolves_duration sampleDeps sampleDeps_injective
      (sampleSession [.message TextMessage [], .closeError CloseNormalClosure ""]
        (.ok ⟨"saveDuration", "x", 1200000000⟩))
      ⟨"key"⟩ WAV (scenarioTree (some 0)) sampleWriter (fun _ => 0) 0 0 "x" 1200000000 [] ""
      (by decide) (by decide) rfl rfl rfl rfl⟩

/-! ## The read loop: errors, ignored messages, close codes -/

/-- The reads after a prefix that lets the loop go on are processed from the state the prefix
left. -/
theorem readLoop_append (unmarshal : Bytes → Except String Status) (fCtx : fetchContext)
    (dst : Writer) (pre rest : List ReadResult) (m m1 : Mem)
    (hpre : readPrefix unmarshal fCtx dst pre m = some m1) :
    readLoop unmarshal fCtx dst (pre ++ rest) m = readLoop unmarshal fCtx dst rest m1 := by
  induction pre generalizing m with
  | nil =>
    simp only [readPrefix, Option.some.injEq] at hpre
    subst hpre
    rfl
  | cons r rs ih =>
    simp only [readPrefix] at hpre
    cases hs : readStep unmarshal fCtx dst r m with
    | next m2 =>
      rw [hs] at hpre
      rw [List.cons_append, readLoop_next _ _ _ _ _ _ _ hs]
      exact ih m2 hpre
    | done ret m2 =>
      rw [hs] at hpre
      exact absurd hpre (by simp)

/-- A call whose dial and send succeed, whose first reads let the loop go on and whose next
read ends the loop, ends as that iteration says; the reads after it play no part. -/
theorem Compile_stops_at (deps : Deps) (net : Session) (c : Client) (format : Format)
    (ab : AudioBuilder) (dst : Writer) (heap : Heap) (pre rest : List ReadResult)
    (r : ReadResult) (m m1 : Mem) (ret : Ret)
    (hdial : net.dial ("wss://podio.poxate.com/compile?apiKey=" ++ c.apiKey) = .connected)
    (hsend : net.WriteJSON
      (.obj [("format", .str format), ("body", (toJson deps ab ⟨[]⟩ 0).1)]) = none)
    (hreads : net.reads = pre ++ r :: rest)
    (hpre : readPrefix net.Unmarshal (toJson deps ab ⟨[]⟩ 0).2.1 dst pre ⟨[], heap⟩ = some m)
    (hstep : readStep net.Unmarshal (toJson deps ab ⟨[]⟩ 0).2.1 dst r m = .done ret m1) :
    Client.Compile deps net c format ab dst heap =
      ⟨ret, [.obj [("format", .str format), ("body", (toJson deps ab ⟨[]⟩ 0).1)]],
        m1.sink, m1.heap, []⟩ := by
  rw [Compile_connected deps net c format ab dst heap hdial hsend, hreads,
    readLoop_append _ _ _ pre (r :: rest) _ m hpre, readLoop_done _ _ _ _ _ _ _ _ hstep]

/-- C11: for every context and every tag that is not a key of it, the loop iteration on a text
frame that decodes to a `saveDuration` status with that tag ends the call with the
unknown-duration-tag error: the loop does not go on (whatever reads follow), it does not panic,
and the sink and every duration cell are left as they were. -/
theorem readLoop_unknown_tag_aborts (unmarshal : Bytes → Except String Status)
    (fCtx : fetchContext) (dst : Writer) (body : Bytes) (m : Mem) (tag : String) (n : Int)
    (rest : List ReadResult) (hdec : unmarshal body = .ok ⟨"saveDuration", tag, n⟩)
    (hkey : tag ∉ fCtx.keys) :
    readStep unmarshal fCtx dst (.message TextMessage body) m
        = .done (.error (.unknownDurationTag tag)) m
    ∧ (readLoop unmarshal fCtx dst (.message TextMessage body :: rest) m).1
        = .error (.unknownDurationTag tag)
    ∧ (readLoop unmarshal fCtx dst (.message TextMessage body :: rest) m).2.heap = m.heap
    ∧ (readLoop unmarshal fCtx dst (.message TextMessage body :: rest) m).2.sink = m.sink := by
  have hnone : mapLookup fCtx.durations tag = none := by
    rw [mapLookup, List.lookup_eq_none_iff]
    intro p hp
    have hne : tag ≠ p.1 := fun h => hkey (h ▸ List.mem_map_of_mem Prod.fst hp)
    simpa using hne
  have hs : readStep unmarshal fCtx dst (.message TextMessage body) m
      = .done (.error (.unknownDurationTag tag)) m := by
    simp [readStep, TextMessage, BinaryMessage, hdec, hnone]
  rw [readLoop_done _ _ _ _ _ _ _ _ hs]
  exact ⟨hs, rfl, rfl, rfl⟩

/-- C11 at the context `{"t1": &cell 4}` and the tag `zz`: the call ends with the error naming
`zz`, and cell 4 keeps its value. -/
theorem readLoop_unknown_tag_aborts_witness :
    "zz" ∉ (fetchContext.mk [("t1", some 4)]).keys
    ∧ (readLoop (fun _ => .ok ⟨"saveDuration", "zz", 10⟩) ⟨[("t1", some 4)]⟩ sampleWriter
        [.message TextMessage [], .message BinaryMessage [1]] ⟨[], fun _ => 7⟩).1
        = .error (.unknownDurationTag "zz")
    ∧ (readLoop (fun _ => .ok ⟨"saveDuration", "zz", 10⟩) ⟨[("t1", some 4)]⟩ sampleWriter
        [.message TextMessage [], .message BinaryMessage [1]] ⟨[], fun _ => 7⟩).2.heap 4 = 7 :=
  ⟨by decide,
    (readLoop_unknown_tag_aborts (fun _ => .ok ⟨"saveDuration", "zz", 10⟩)
      ⟨[("t1", some 4)]⟩ sampleWriter [] ⟨[], fun _ => 7⟩ "zz" 10 [.message BinaryMessage [1]]
      rfl (by decide)).2.1,
    by decide⟩

/-- The bytes `progressNumericTag` spell the text of the message. -/
theorem progressNumericTag_text :
    String.mk (progressNumericTag.map Char.ofNat)
      = "\x7b\"type\":\"progress\",\"_saveDuration\":\x7b\"tag\":5\x7d\x7d" := by
  decide

/-- C12, as stated, fails: the text frame `{"type":"progress","_saveDuration":{"tag":5}}`
carries a message whose type is not `saveDuration`, but its numeric tag does not decode into
the string field of the status struct, and the decoding comes before the test of the type: the
iteration ends the call with the decode error instead of going on, and `Compile` returns that
error although a normal close follows. -/
theorem undecodable_progress_message_aborts :
    readStep typedUnmarshal ⟨[]⟩ sampleWriter (.message TextMessage progressNumericTag)
        ⟨[], fun _ => 0⟩
      = .done (.error (.unmarshal
          "json: cannot unmarshal number into Go struct field ._saveDuration.tag of type string"))
          ⟨[], fun _ => 0⟩
    ∧ (¬ ∃ m1 : Mem,
        readStep typedUnmarshal ⟨[]⟩ sampleWriter (.message TextMessage progressNumericTag)
          ⟨[], fun _ => 0⟩ = .next m1)
    ∧ (Client.Compile sampleDeps
        ⟨fun _ => .connected, fun _ => none,
          [.message TextMessage progressNumericTag, .closeError CloseNormalClosure ""],
          typedUnmarshal, fun _ => []⟩
        ⟨"key"⟩ MP3 (Remote "a") sampleWriter (fun _ => 0)).ret
      = .error (.unmarshal
          "json: cannot unmarshal number into Go struct field ._saveDuration.tag of type string")
        := by
  have hstep : readStep typedUnmarshal ⟨[]⟩ sampleWriter
      (.message TextMessage progressNumericTag) ⟨[], fun _ => 0⟩
      = .done (.error (.unmarshal
          "json: cannot unmarshal number into Go struct field ._saveDuration.tag of type string"))
          ⟨[], fun _ => 0⟩ := rfl
  refine ⟨hstep, ?_, by decide⟩
  rintro ⟨m1, h⟩
  rw [hstep] at h
  exact Step.noConfusion h

/-- C12, amended: the loop iteration on a text frame that decodes into the status struct with a
type other than `saveDuration` does nothing: no error, the sink and every duration cell
unchanged, and the loop goes on with the next read, whatever tag and duration the status
carries (the tag is not even looked up).  A text frame that does not decode into the struct
ends the call with the decode error, whatever type it carries, the sink and the cells
unchanged. -/
theorem readStep_other_type_ignored (unmarshal : Bytes → Except String Status)
    (fCtx : fetchContext) (dst : Writer) (body : Bytes) (m : Mem) (status : Status)
    (rest : List ReadResult) (hdec : unmarshal body = .ok status)
    (htyp : status.Typ ≠ "saveDuration") :
    readStep unmarshal fCtx dst (.message TextMessage body) m = .next m
    ∧ readLoop unmarshal fCtx dst (.message TextMessage body :: rest) m
        = readLoop unmarshal fCtx dst rest m
    ∧ ∀ (body2 : Bytes) (err : String), unmarshal body2 = .error err →
        readStep unmarshal fCtx dst (.message TextMessage body2) m
            = .done (.error (.unmarshal err)) m
        ∧ readLoop unmarshal fCtx dst (.message TextMessage body2 :: rest) m
            = (.error (.unmarshal err), m) := by
  have hs : readStep unmarshal fCtx dst (.message TextMessage body) m = .next m := by
    simp [readStep, TextMessage, BinaryMessage, hdec, htyp]
  refine ⟨hs, readLoop_next _ _ _ _ _ _ _ hs, ?_⟩
  intro body2 err herr
  have hs2 : readStep unmarshal fCtx dst (.message TextMessage body2) m
      = .done (.error (.unmarshal err)) m := by
    simp [readStep, TextMessage, BinaryMessage, herr]
  exact ⟨hs2, readLoop_done _ _ _ _ _ _ _ _ hs2⟩

/-- C12 amended, at a `progress` status carrying the tag `xx`, which the context
`{"t1": &cell 4}` does not hold: the loop goes on and the following normal close is read next;
the body `progressNumericTag`, which does not decode, ends the call with the decode error. -/
theorem readStep_other_type_ignored_witness :
    readStep typedUnmarshal ⟨[("t1", some 4)]⟩ sampleWriter
        (.message TextMessage [2]) ⟨[5], fun _ => 7⟩ = .next ⟨[5], fun _ => 7⟩
    ∧ readLoop typedUnmarshal ⟨[("t1", some 4)]⟩ sampleWriter
        [.message TextMessage [2], .closeError CloseNormalClosure ""] ⟨[5], fun _ => 7⟩
      = readLoop typedUnmarshal ⟨[("t1", some 4)]⟩ sampleWriter
        [.closeError CloseNormalClosure ""] ⟨[5], fun _ => 7⟩
    ∧ (readLoop typedUnmarshal ⟨[("t1", some 4)]⟩ sampleWriter
        [.message TextMessage progressNumericTag, .closeError CloseNormalClosure ""]
        ⟨[5], fun _ => 7⟩).1
      = .error (.unmarshal
          "json: cannot unmarshal number into Go struct field ._saveDuration.tag of type string")
        := by
  have h := readStep_other_type_ignored typedUnmarshal ⟨[("t1", some 4)]⟩ sampleWriter [2]
    ⟨[5], fun _ => 7⟩ ⟨"progress", "xx", 0⟩ [.closeError CloseNormalClosure ""] rfl (by decide)
  refine ⟨h.1, h.2.1, ?_⟩
  rw [(h.2.2 progressNumericTag _ rfl).2]

/-- C13: when the dial and the send succeed and zero or more reads that let the loop go on are
followed by a peer close with code `code`, `Compile` returns nil if and only if `code` is the
normal-closure code; for every other code it returns the unexpected-close error, which wraps
the close error with that code and its text. -/
theorem Compile_close_code (deps : Deps) (net : Session) (c : Client) (format : Format)
    (ab : AudioBuilder) (dst : Writer) (heap : Heap) (pre rest : List ReadResult) (m : Mem)
    (code : Int) (text : String)
    (hdial : net.dial ("wss://podio.poxate.com/compile?apiKey=" ++ c.apiKey) = .connected)
    (hsend : net.WriteJSON
      (.obj [("format", .str format), ("body", (toJson deps ab ⟨[]⟩ 0).1)]) = none)
    (hreads : net.reads = pre ++ .closeError code text :: rest)
    (hpre : readPrefix net.Unmarshal (toJson deps ab ⟨[]⟩ 0).2.1 dst pre ⟨[], heap⟩ = some m) :
    ((Client.Compile deps net c format ab dst heap).ret = .success ↔ code = CloseNormalClosure)
    ∧ (code ≠ CloseNormalClosure →
        (Client.Compile deps net c format ab dst heap).ret
          = .error (.unexpectedClose code text)) := by
  by_cases hc : code = CloseNormalClosure
  · have hs : readStep net.Unmarshal (toJson deps ab ⟨[]⟩ 0).2.1 dst (.closeError code text) m
        = .done .success m := by simp [readStep, hc]
    rw [Compile_stops_at deps net c format ab dst heap pre rest _ m m _ hdial hsend hreads
      hpre hs]
    simp [hc]
  · have hs : readStep net.Unmarshal (toJson deps ab ⟨[]⟩ 0).2.1 dst (.closeError code text) m
        = .done (.error (.unexpectedClose code text)) m := by simp [readStep, hc]
    rw [Compile_stops_at deps net c format ab dst heap pre rest _ m m _ hdial hsend hreads
      hpre hs]
    simp [hc]

/-- C13 at one binary frame followed by a close with code 1006 (abnormal closure): the call
returns the unexpected-close error carrying 1006 and the reason. -/
theorem Compile_close_code_witness :
    (Client.Compile sampleDeps
        (sampleSessionOf [.message BinaryMessage [1], .closeError 1006 "gone"])
        ⟨"key"⟩ MP3 (Remote "a") sampleWriter (fun _ => 0)).ret
      = .error (.unexpectedClose 1006 "gone") :=
  (Compile_close_code sampleDeps
    (sampleSessionOf [.message BinaryMessage [1], .closeError 1006 "gone"])
    ⟨"key"⟩ MP3 (Remote "a") sampleWriter (fun _ => 0) [.message BinaryMessage [1]] []
    ⟨[1], fun _ => 0⟩ 1006 "gone" rfl rfl rfl rfl).2 (by decide)

/-! ## The opening message and the placeholder -/

/-- A call has transmitted nothing, or the one message `{format, body}`. -/
theorem Compile_sent_cases (deps : Deps) (net : Session) (c : Client) (format : Format)
    (ab : AudioBuilder) (dst : Writer) (heap : Heap) :
    (Client.Compile deps net c format ab dst heap).sent = []
    ∨ (Client.Compile deps net c format ab dst heap).sent
        = [.obj [("format", .str format), ("body", (toJson deps ab ⟨[]⟩ 0).1)]] := by
  cases hd : net.dial ("wss://podio.poxate.com/compile?apiKey=" ++ c.apiKey) with
  | failed err resp =>
    left
    unfold Client.Compile
    simp [hd]
  | connected =>
    cases hw : net.WriteJSON
        (.obj [("format", .str format), ("body", (toJson deps ab ⟨[]⟩ 0).1)]) with
    | none =>
      right
      rw [Compile_connected deps net c format ab dst heap hd hw]
    | some err =>
      left
      unfold Client.Compile
      simp [hd, hw]


/-- C15, as stated, fails: not every call transmits the message.  For the tree
`Remote("a").Volume(NaN)` the document does not encode, `WriteJSON` returns the encoder error
and the call returns it without reading anything: no `{format, body}` object has been
transmitted, only one empty text frame has gone out.  And a call whose dial is refused
transmits nothing at all. -/
theorem unencodable_volume_sends_no_message :
    (Client.Compile sampleDeps (encodeFailureSession [.closeError CloseNormalClosure ""])
        ⟨"key"⟩ MP3 ((Remote "a").Volume (0.0 / 0.0)) sampleWriter (fun _ => 0)).ret
      = .error (.writeJSON "json: unsupported value: NaN")
    ∧ (Client.Compile sampleDeps (encodeFailureSession [.closeError CloseNormalClosure ""])
        ⟨"key"⟩ MP3 ((Remote "a").Volume (0.0 / 0.0)) sampleWriter (fun _ => 0)).sent = []
    ∧ (Client.Compile sampleDeps (encodeFailureSession [.closeError CloseNormalClosure ""])
        ⟨"key"⟩ MP3 ((Remote "a").Volume (0.0 / 0.0)) sampleWriter (fun _ => 0)).stray = [[]]
    ∧ (Client.Compile sampleDeps (encodeFailureSession [.closeError CloseNormalClosure ""])
        ⟨"key"⟩ MP3 ((Remote "a").Volume (0.0 / 0.0)) sampleWriter (fun _ => 0)).sent.length
      ≠ 1
    ∧ (Client.Compile sampleDeps (refusedSession [.closeError CloseNormalClosure ""])
        ⟨"key"⟩ MP3 (Remote "a") sampleWriter (fun _ => 0)).sent = []
    ∧ (Client.Compile sampleDeps (refusedSession [.closeError CloseNormalClosure ""])
        ⟨"key"⟩ MP3 (Remote "a") sampleWriter (fun _ => 0)).stray = [] := by
  refine ⟨rfl, rfl, rfl, ?_, rfl, rfl⟩
  have h : (Client.Compile sampleDeps (encodeFailureSession [.closeError CloseNormalClosure ""])
      ⟨"key"⟩ MP3 ((Remote "a").Volume (0.0 / 0.0)) sampleWriter (fun _ => 0)).sent = [] := rfl
  rw [h]
  decide

/-- C15, amended: when the dial and the send succeed, `Compile` has transmitted exactly one
message, the object with exactly the two fields `format` (the string of the format; `MP3` is
`mp3`, `WAV` is `wav`, `OPUS` is `opus`, `PCM_16_LE` is `s16le`) and `body` (the serialization
of the tree into a fresh, empty context), and nothing else; it has done so before any read, the
message being there while the call is still blocked on its first read.  In every call the
messages transmitted in full are none or that one.  When the dial fails nothing is
transmitted, and when the send fails the call returns the send error without reading a frame,
no message transmitted in full and on the wire only the frames the failed send left. -/
theorem Compile_opening_message (deps : Deps) (net : Session) (c : Client) (format : Format)
    (ab : AudioBuilder) (dst : Writer) (heap : Heap) :
    (net.dial ("wss://podio.poxate.com/compile?apiKey=" ++ c.apiKey) = .connected →
        net.WriteJSON (.obj [("format", .str format), ("body", (toJson deps ab ⟨[]⟩ 0).1)])
          = none →
        (Client.Compile deps net c format ab dst heap).sent
            = [.obj [("format", .str format), ("body", (toJson deps ab ⟨[]⟩ 0).1)]]
        ∧ (Client.Compile deps net c format ab dst heap).stray = []
        ∧ (Client.Compile deps ⟨net.dial, net.WriteJSON, [], net.Unmarshal, net.failedWrite⟩ c
            format ab dst heap).sent
            = [.obj [("format", .str format), ("body", (toJson deps ab ⟨[]⟩ 0).1)]]
        ∧ (Client.Compile deps ⟨net.dial, net.WriteJSON, [], net.Unmarshal, net.failedWrite⟩ c
            format ab dst heap).ret = .blocked)
    ∧ ((Client.Compile deps net c format ab dst heap).sent = []
        ∨ (Client.Compile deps net c format ab dst heap).sent
            = [.obj [("format", .str format), ("body", (toJson deps ab ⟨[]⟩ 0).1)]])
    ∧ (∀ (err : String) (resp : Option Bytes),
        net.dial ("wss://podio.poxate.com/compile?apiKey=" ++ c.apiKey) = .failed err resp →
        (Client.Compile deps net c format ab dst heap).ret = .error (.dialFailed err resp)
        ∧ (Client.Compile deps net c format ab dst heap).sent = []
        ∧ (Client.Compile deps net c format ab dst heap).stray = [])
    ∧ (∀ err : String,
        net.dial ("wss://podio.poxate.com/compile?apiKey=" ++ c.apiKey) = .connected →
        net.WriteJSON (.obj [("format", .str format), ("body", (toJson deps ab ⟨[]⟩ 0).1)])
          = some err →
        (Client.Compile deps net c format ab dst heap).ret = .error (.writeJSON err)
        ∧ (Client.Compile deps net c format ab dst heap).sent = []
        ∧ (Client.Compile deps net c format ab dst heap).stray
            = net.failedWrite
                (.obj [("format", .str format), ("body", (toJson deps ab ⟨[]⟩ 0).1)])
        ∧ (Client.Compile deps net c format ab dst heap).sink = []
        ∧ (Client.Compile deps net c format ab dst heap).heap = heap)
    ∧ (Json.obj [("format", .str format), ("body", (toJson deps ab ⟨[]⟩ 0).1)]).keys
        = ["format", "body"]
    ∧ MP3 = "mp3" ∧ WAV = "wav" ∧ OPUS = "opus" ∧ PCM_16_LE = "s16le" := by
  refine ⟨?_, Compile_sent_cases deps net c format ab dst heap, ?_, ?_, rfl, rfl, rfl, rfl, rfl⟩
  · intro hdial hsend
    refine ⟨?_, ?_, ?_, ?_⟩
    · rw [Compile_connected deps net c format ab dst heap hdial hsend]
    · rw [Compile_connected deps net c format ab dst heap hdial hsend]
    · rw [Compile_connected deps ⟨net.dial, net.WriteJSON, [], net.Unmarshal, net.failedWrite⟩
        c format ab dst heap hdial hsend]
    · rw [Compile_connected deps ⟨net.dial, net.WriteJSON, [], net.Unmarshal, net.failedWrite⟩
        c format ab dst heap hdial hsend]
      rfl
  · intro err resp hdial
    unfold Client.Compile
    simp [hdial]
  · intro err hdial hsend
    unfold Client.Compile
    simp [hdial, hsend]

/-- C15 amended, at the format `PCM_16_LE` and the tree `Remote("a")`, with a peer that has
sent nothing yet: the one message `{"format":"s16le","body":{"type":"remote","url":"a"}}` has
been sent; and for `Remote("a").Volume(NaN)`, where the send fails on the encoding, the call
returns that error. -/
theorem Compile_opening_message_witness :
    (Client.Compile sampleDeps (sampleSessionOf []) ⟨"key"⟩ PCM_16_LE (Remote "a") sampleWriter
        (fun _ => 0)).sent
      = [.obj [("format", .str "s16le"),
          ("body", .obj [("type", .str "remote"), ("url", .str "a")])]]
    ∧ (Client.Compile sampleDeps (encodeFailureSession []) ⟨"key"⟩ PCM_16_LE
        ((Remote "a").Volume (0.0 / 0.0)) sampleWriter (fun _ => 0)).ret
      = .error (.writeJSON "json: unsupported value: NaN") :=
  ⟨((Compile_opening_message sampleDeps (sampleSessionOf []) ⟨"key"⟩ PCM_16_LE (Remote "a")
      sampleWriter (fun _ => 0)).1 rfl rfl).1,
    ((Compile_opening_message sampleDeps (encodeFailureSession []) ⟨"key"⟩ PCM_16_LE
      ((Remote "a").Volume (0.0 / 0.0)) sampleWriter (fun _ => 0)).2.2.2.1
      "json: unsupported value: NaN" rfl rfl).1⟩

/-- C18: the zero-value `AudioBuilder` does not make serialization fail.  `toJson` returns the
placeholder `{type:"unknown", body:<dump>}`, adds no entry to the context and draws no token;
and below each combinator (as the body of a wrapper, as body or background of `WithBackground`,
as an element of `Concat`) the placeholder stands at the position of the node. -/
theorem toJson_zero_placeholder (deps : Deps) (ctx : fetchContext) (k : Nat) (n : Int)
    (d : Duration) (v : Float) (p : DurationPtr) (t : AudioBuilder)
    (audios : List AudioBuilder) (i : Nat) :
    toJson deps .zero ctx k
        = (.obj [("type", .str "unknown"), ("body", .str (deps.Sdump .zero))], ctx, k)
    ∧ (toJson deps (AudioBuilder.zero.Loop n) ctx k).1.field "body"
        = some (.obj [("type", .str "unknown"), ("body", .str (deps.Sdump .zero))])
    ∧ (toJson deps (AudioBuilder.zero.PadLeft d) ctx k).1.field "body"
        = some (.obj [("type", .str "unknown"), ("body", .str (deps.Sdump .zero))])
    ∧ (toJson deps (AudioBuilder.zero.PadRight d) ctx k).1.field "body"
        = some (.obj [("type", .str "unknown"), ("body", .str (deps.Sdump .zero))])
    ∧ (toJson deps (AudioBuilder.zero.Volume v) ctx k).1.field "body"
        = some (.obj [("type", .str "unknown"), ("body", .str (deps.Sdump .zero))])
    ∧ (toJson deps (AudioBuilder.zero.FadeIn d) ctx k).1.field "body"
        = some (.obj [("type", .str "unknown"), ("body", .str (deps.Sdump .zero))])
    ∧ (toJson deps (AudioBuilder.zero.FadeOut d) ctx k).1.field "body"
        = some (.obj [("type", .str "unknown"), ("body", .str (deps.Sdump .zero))])
    ∧ (toJson deps (AudioBuilder.zero.SaveDuration p) ctx k).1.field "body"
        = some (.obj [("type", .str "unknown"), ("body", .str (deps.Sdump .zero))])
    ∧ (toJson deps (AudioBuilder.zero.WithBackground t) ctx k).1.field "body"
        = some (.obj [("type", .str "unknown"), ("body", .str (deps.Sdump .zero))])
    ∧ (toJson deps (t.WithBackground .zero) ctx k).1.field "background"
        = some (.obj [("type", .str "unknown"), ("body", .str (deps.Sdump .zero))])
    ∧ (audios[i]? = some .zero →
        (toJsonRange deps audios ctx k).1[i]?
            = some (.obj [("type", .str "unknown"), ("body", .str (deps.Sdump .zero))])
        ∧ (toJson deps (Concat audios) ctx k).1.field "list"
            = some (.arr (toJsonRange deps audios ctx k).1)) := by
  refine ⟨rfl, rfl, rfl, rfl, rfl, rfl, rfl, rfl, rfl, rfl, ?_⟩
  intro hi
  refine ⟨?_, rfl⟩
  rw [toJsonRange_getElem, hi]
  rfl

/-- C18 at `Concat(Remote("a"), AudioBuilder{}).Loop(2)` with the sample dump: the second
element of the list is the placeholder, and the context stays empty. -/
theorem toJson_zero_placeholder_witness :
    (toJsonRange sampleDeps [Remote "a", .zero] ⟨[]⟩ 0).1[1]?
        = some (.obj [("type", .str "unknown"), ("body", .str "dump")])
    ∧ (toJson sampleDeps ((Concat [Remote "a", .zero]).Loop 2) ⟨[]⟩ 0).2.1.durations = [] :=
  ⟨((toJson_zero_placeholder sampleDeps ⟨[]⟩ 0 0 0 0 none (Remote "a") [Remote "a", .zero]
      1).2.2.2.2.2.2.2.2.2.2 rfl).1,
    by decide⟩

/-! ## Errors in the read loop -/

/-- After reads that all let the loop go on, the sink has gained the bodies of the binary
messages among them, in order. -/
theorem readPrefix_sink (unmarshal : Bytes → Except String Status) (fCtx : fetchContext)
    (dst : Writer) (frames : List (Int × Bytes)) (m m1 : Mem)
    (hpre : readPrefix unmarshal fCtx dst (frames.map (fun f => ReadResult.message f.1 f.2)) m
      = some m1) :
    m1.sink = m.sink ++ binaryBytes frames := by
  induction frames generalizing m with
  | nil =>
    simp only [List.map_nil, readPrefix, Option.some.injEq] at hpre
    subst hpre
    simp [binaryBytes]
  | cons f fs ih =>
    simp only [List.map_cons, readPrefix] at hpre
    cases hs : readStep unmarshal fCtx dst (.message f.1 f.2) m with
    | next m2 =>
      rw [hs] at hpre
      rw [ih m2 hpre, readStep_message_next_sink _ _ _ _ _ _ _ hs]
      by_cases hb : f.1 = BinaryMessage <;> simp [binaryBytes, List.filter_cons, hb]
    | done ret m2 =>
      rw [hs] at hpre
      exact absurd hpre (by simp)

/-- An iteration that ends the call with an error leaves the duration cells as they are, and
leaves the sink as it is unless the error is a rejected write, in which case the sink has
gained the part of the body that the writer took. -/
theorem readStep_error_mem (unmarshal : Bytes → Except String Status) (fCtx : fetchContext)
    (dst : Writer) (r : ReadResult) (m m1 : Mem) (e : CompileError)
    (hs : readStep unmarshal fCtx dst r m = .done (.error e) m1) :
    m1.heap = m.heap
    ∧ ((∀ err, e ≠ .dstWrite err) → m1.sink = m.sink)
    ∧ (∀ err, e = .dstWrite err → ∃ body n, r = .message BinaryMessage body
        ∧ dst m.sink body = some (n, err) ∧ m1.sink = m.sink ++ body.take n) := by
  cases r with
  | closeError code text =>
    simp only [readStep] at hs
    split at hs
    · simp at hs
    · simp only [Step.done.injEq, Ret.error.injEq] at hs
      obtain ⟨he, hm⟩ := hs
      subst he hm
      simp
  | failure err =>
    simp only [readStep, Step.done.injEq, Ret.error.injEq] at hs
    obtain ⟨he, hm⟩ := hs
    subst he hm
    simp
  | message messageType body =>
    simp only [readStep] at hs
    split at hs
    · rename_i hb
      split at hs
      · rename_i n err hw
        simp only [Step.done.injEq, Ret.error.injEq] at hs
        obtain ⟨he, hm⟩ := hs
        subst he hm
        refine ⟨rfl, fun h => absurd rfl (h err), ?_⟩
        intro err1 he1
        injection he1 with he1
        subst he1
        exact ⟨body, n, by rw [hb], hw, rfl⟩
      · simp at hs
    · split at hs
      · split at hs
        · simp only [Step.done.injEq, Ret.error.injEq] at hs
          obtain ⟨he, hm⟩ := hs
          subst he hm
          simp
        · split at hs
          · split at hs
            · simp only [Step.done.injEq, Ret.error.injEq] at hs
              obtain ⟨he, hm⟩ := hs
              subst he hm
              simp
            · simp at hs
            · simp at hs
          · simp at hs
      · split at hs <;> simp at hs

/-- C17, as stated, fails for a rejected sink write: with a writer that has room for three
bytes and the binary frames `[1, 2]` and `[3, 4]`, the write of the frame at position 1 is
rejected and the call returns that error, but the sink holds `[1, 2, 3]`, not the payload
`[1, 2]` of the frame before position 1. -/
theorem rejected_write_leaves_partial_payload :
    (Client.Compile sampleDeps
        (sampleSessionOf [.message BinaryMessage [1, 2], .message BinaryMessage [3, 4],
          .closeError CloseNormalClosure ""])
        ⟨"key"⟩ MP3 (Remote "a") sampleSmallWriter (fun _ => 0)).ret
      = .error (.dstWrite "short write")
    ∧ (Client.Compile sampleDeps
        (sampleSessionOf [.message BinaryMessage [1, 2], .message BinaryMessage [3, 4],
          .closeError CloseNormalClosure ""])
        ⟨"key"⟩ MP3 (Remote "a") sampleSmallWriter (fun _ => 0)).sink = [1, 2, 3]
    ∧ (Client.Compile sampleDeps
        (sampleSessionOf [.message BinaryMessage [1, 2], .message BinaryMessage [3, 4],
          .closeError CloseNormalClosure ""])
        ⟨"key"⟩ MP3 (Remote "a") sampleSmallWriter (fun _ => 0)).sink
      ≠ binaryBytes [(BinaryMessage, [1, 2])] := by
  decide

/-- C17, amended: every error in the read loop is terminal and nothing is rolled back.  When
the dial and the send succeed, the frames before position `k` let the loop go on and the
iteration at position `k` ends with the error `e` (a text frame that does not decode, a
`saveDuration` with an unknown tag, a rejected sink write, an abnormal close, a read error),
`Compile` returns `e`, whatever reads follow; the duration cells are as the frames before `k`
left them; and the sink holds the bodies of the binary frames before `k`, in order, followed
only for a rejected write by the part of the body at position `k` that the writer took. -/
theorem Compile_error_is_terminal (deps : Deps) (net : Session) (c : Client) (format : Format)
    (ab : AudioBuilder) (dst : Writer) (heap : Heap) (frames : List (Int × Bytes))
    (r : ReadResult) (rest : List ReadResult) (m m1 : Mem) (e : CompileError)
    (hdial : net.dial ("wss://podio.poxate.com/compile?apiKey=" ++ c.apiKey) = .connected)
    (hsend : net.WriteJSON
      (.obj [("format", .str format), ("body", (toJson deps ab ⟨[]⟩ 0).1)]) = none)
    (hreads : net.reads = frames.map (fun f => ReadResult.message f.1 f.2) ++ r :: rest)
    (hpre : readPrefix net.Unmarshal (toJson deps ab ⟨[]⟩ 0).2.1 dst
      (frames.map (fun f => ReadResult.message f.1 f.2)) ⟨[], heap⟩ = some m)
    (hstep : readStep net.Unmarshal (toJson deps ab ⟨[]⟩ 0).2.1 dst r m = .done (.error e) m1) :
    (Client.Compile deps net c format ab dst heap).ret = .error e
    ∧ (Client.Compile deps net c format ab dst heap).heap = m.heap
    ∧ m.sink = binaryBytes frames
    ∧ ((∀ err, e ≠ .dstWrite err) →
        (Client.Compile deps net c format ab dst heap).sink = binaryBytes frames)
    ∧ (∀ err, e = .dstWrite err → ∃ body n, r = .message BinaryMessage body
        ∧ dst (binaryBytes frames) body = some (n, err)
        ∧ (Client.Compile deps net c format ab dst heap).sink
            = binaryBytes frames ++ body.take n) := by
  have hsink : m.sink = binaryBytes frames := by
    simpa using readPrefix_sink _ _ _ frames ⟨[], heap⟩ m hpre
  obtain ⟨hheap, hother, hwrite⟩ := readStep_error_mem _ _ _ r m m1 e hstep
  rw [Compile_stops_at deps net c format ab dst heap _ rest r m m1 _ hdial hsend hreads hpre
    hstep]
  refine ⟨rfl, hheap, hsink, fun h => (hother h).trans hsink, ?_⟩
  intro err he
  obtain ⟨body, n, hr, hw, hs⟩ := hwrite err he
  exact ⟨body, n, hr, hsink ▸ hw, hsink ▸ hs⟩

/-- C17 amended, at a binary frame `[1, 2]`, a `saveDuration` frame for the token of the tree,
and then a text frame that does not decode, with more frames after it: the call returns the
decode error, the sink holds `[1, 2]`, and the cell keeps the duration 9 written before. -/
theorem Compile_error_is_terminal_witness :
    (Client.Compile sampleDeps
        (sampleSessionOf [.message BinaryMessage [1, 2], .message TextMessage [1, 9],
          .message TextMessage [], .message BinaryMessage [3]])
        ⟨"key"⟩ MP3 ((Remote "a").SaveDuration (some 0)) sampleWriter (fun _ => 0)).ret
      = .error (.unmarshal "unexpected end of JSON input")
    ∧ (Client.Compile sampleDeps
        (sampleSessionOf [.message BinaryMessage [1, 2], .message TextMessage [1, 9],
          .message TextMessage [], .message BinaryMessage [3]])
        ⟨"key"⟩ MP3 ((Remote "a").SaveDuration (some 0)) sampleWriter (fun _ => 0)).heap 0 = 9
    ∧ (Client.Compile sampleDeps
        (sampleSessionOf [.message BinaryMessage [1, 2], .message TextMessage [1, 9],
          .message TextMessage [], .message BinaryMessage [3]])
        ⟨"key"⟩ MP3 ((Remote "a").SaveDuration (some 0)) sampleWriter (fun _ => 0)).sink
      = [1, 2] := by
  have h := Compile_error_is_terminal sampleDeps
    (sampleSessionOf [.message BinaryMessage [1, 2], .message TextMessage [1, 9],
      .message TextMessage [], .message BinaryMessage [3]])
    ⟨"key"⟩ MP3 ((Remote "a").SaveDuration (some 0)) sampleWriter (fun _ => 0)
    [(BinaryMessage, [1, 2]), (TextMessage, [1, 9])] (.message TextMessage [])
    [.message BinaryMessage [3]] ⟨[1, 2], Heap.store (fun _ => 0) 0 9⟩
    ⟨[1, 2], Heap.store (fun _ => 0) 0 9⟩ (.unmarshal "unexpected end of JSON input")
    rfl rfl rfl rfl rfl
  exact ⟨h.1, by rw [h.2.1]; rfl, h.2.2.2.1 (by intro err; simp)⟩

/-! ## Writes to the duration cells -/

/-- A message that resolves cell `a` stores its duration there and lets the loop go on,
whatever the cell held. -/
theorem readStep_of_resolves (unmarshal : Bytes → Except String Status) (fCtx : fetchContext)
    (dst : Writer) (f : Int × Bytes) (a : Nat) (d : Duration) (m : Mem)
    (h : resolves unmarshal fCtx f a = some d) :
    readStep unmarshal fCtx dst (.message f.1 f.2) m = .next ⟨m.sink, m.heap.store a d⟩ := by
  unfold resolves at h
  split at h
  · rename_i ht
    split at h
    · simp at h
    · rename_i status hdec
      split at h
      · rename_i hc
        simp only [Option.some.injEq] at h
        subst h
        simp [readStep, ht, TextMessage, BinaryMessage, hdec, hc.1, hc.2]
      · simp at h
  · simp at h

/-- After an iteration on a message that lets the loop go on, cell `a` holds the duration the
message resolves it to, or what it held before when the message does not resolve it. -/
theorem readStep_message_next_heap (unmarshal : Bytes → Except String Status)
    (fCtx : fetchContext) (dst : Writer) (f : Int × Bytes) (a : Nat) (m m1 : Mem)
    (hs : readStep unmarshal fCtx dst (.message f.1 f.2) m = .next m1) :
    m1.heap a = (resolves unmarshal fCtx f a).getD (m.heap a) := by
  cases hr : resolves unmarshal fCtx f a with
  | some d =>
    rw [readStep_of_resolves unmarshal fCtx dst f a d m hr] at hs
    simp only [Step.next.injEq] at hs
    subst hs
    simp [Heap.store]
  | none =>
    simp only [Option.getD_none]
    unfold resolves at hr
    simp only [readStep] at hs
    split at hs
    · split at hs
      · simp at hs
      · simp only [Step.next.injEq] at hs
        subst hs
        rfl
    · split at hs
      · rename_i ht
        split at hs
        · simp at hs
        · rename_i status hdec
          simp only [ht, if_true, hdec] at hr
          split at hs
          · rename_i htyp
            split at hs
            · simp at hs
            · simp at hs
            · rename_i b hb
              simp only [Step.next.injEq] at hs
              subst hs
              have hne : b ≠ a := by
                intro hba
                subst hba
                simp [htyp, hb] at hr
              simp [Heap.store, Ne.symm hne]
          · simp only [Step.next.injEq] at hs
            subst hs
            rfl
      · split at hs
        · simp at hs
        · simp only [Step.next.injEq] at hs
          subst hs
          rfl

/-- Appending a value to a list makes it the last one. -/
theorem getLast?_cons_getD (v : Duration) (l : List Duration) (x : Duration) :
    (v :: l).getLast?.getD x = l.getLast?.getD v := by
  rw [List.getLast?_cons]
  rfl

/-- After frames that all let the loop go on, cell `a` holds the duration of the last frame
that resolves it, or what it held before when none does. -/
theorem readPrefix_heap (unmarshal : Bytes → Except String Status) (fCtx : fetchContext)
    (dst : Writer) (frames : List (Int × Bytes)) (a : Nat) (m m1 : Mem)
    (hpre : readPrefix unmarshal fCtx dst (frames.map (fun f => ReadResult.message f.1 f.2)) m
      = some m1) :
    m1.heap a
      = ((frames.filterMap (fun f => resolves unmarshal fCtx f a)).getLast?).getD (m.heap a) := by
  induction frames generalizing m with
  | nil =>
    simp only [List.map_nil, readPrefix, Option.some.injEq] at hpre
    subst hpre
    rfl
  | cons f fs ih =>
    simp only [List.map_cons, readPrefix] at hpre
    cases hs : readStep unmarshal fCtx dst (.message f.1 f.2) m with
    | next m2 =>
      rw [hs] at hpre
      rw [ih m2 hpre, readStep_message_next_heap _ _ _ _ a _ _ hs]
      cases hr : resolves unmarshal fCtx f a with
      | none => simp [List.filterMap_cons, hr]
      | some d => simp [List.filterMap_cons, hr, getLast?_cons_getD]
    | done ret m2 =>
      rw [hs] at hpre
      exact absurd hpre (by simp)

/-- A loop that ends in success on messages (none of the close message type) followed by a
normal close has gone through all the messages. -/
theorem readLoop_success_prefix (unmarshal : Bytes → Except String Status)
    (fCtx : fetchContext) (dst : Writer) (frames : List (Int × Bytes)) (text : String)
    (rest : List ReadResult) (hdata : ∀ f ∈ frames, f.1 ≠ CloseMessage) (m : Mem)
    (hok : (readLoop unmarshal fCtx dst
      (frames.map (fun f => ReadResult.message f.1 f.2)
        ++ .closeError CloseNormalClosure text :: rest) m).1 = .success) :
    ∃ m1, readPrefix unmarshal fCtx dst (frames.map (fun f => ReadResult.message f.1 f.2)) m
        = some m1
      ∧ readLoop unmarshal fCtx dst
          (frames.map (fun f => ReadResult.message f.1 f.2)
            ++ .closeError CloseNormalClosure text :: rest) m = (.success, m1) := by
  induction frames generalizing m with
  | nil =>
    have hs : readStep unmarshal fCtx dst (.closeError CloseNormalClosure text) m
        = .done .success m := by simp [readStep]
    exact ⟨m, rfl, by simp [readLoop_done _ _ _ _ _ _ _ _ hs]⟩
  | cons f fs ih =>
    have hf : f.1 ≠ CloseMessage := hdata f (List.mem_cons_self _ _)
    have hfs : ∀ g ∈ fs, g.1 ≠ CloseMessage := fun g hg => hdata g (List.mem_cons_of_mem _ hg)
    rw [List.map_cons, List.cons_append] at hok ⊢
    cases hs : readStep unmarshal fCtx dst (.message f.1 f.2) m with
    | next m2 =>
      rw [readLoop_next _ _ _ _ _ _ _ hs] at hok ⊢
      obtain ⟨m1, h1, h2⟩ := ih hfs m2 hok
      exact ⟨m1, by simp only [readPrefix, hs]; exact h1, h2⟩
    | done ret m2 =>
      rw [readLoop_done _ _ _ _ _ _ _ _ hs] at hok
      simp only at hok
      subst hok
      exact absurd (readStep_message_done_success _ _ _ _ _ _ _ hs) hf

/-- The assignments of one iteration that go to cell `a`: the one the read resolves, if any. -/
theorem writesTo_readStepWrites (unmarshal : Bytes → Except String Status)
    (fCtx : fetchContext) (r : ReadResult) (a : Nat) :
    writesTo (readStepWrites unmarshal fCtx r) a
      = (resolvesRead unmarshal fCtx r a).toList.map (fun d => (a, d)) := by
  cases r with
  | closeError code text => rfl
  | failure err => rfl
  | message messageType body =>
    simp only [readStepWrites, resolvesRead, resolves]
    by_cases hb : messageType = BinaryMessage
    · subst hb
      simp [BinaryMessage, TextMessage, writesTo]
    · by_cases ht : messageType = TextMessage
      · subst ht
        cases hdec : unmarshal body with
        | error err => simp [TextMessage, BinaryMessage, writesTo]
        | ok status =>
          by_cases htyp : status.Typ = "saveDuration"
          · cases hl : mapLookup fCtx.durations status.Tag with
            | none => simp [TextMessage, BinaryMessage, writesTo, htyp, hl]
            | some p =>
              cases p with
              | none => simp [TextMessage, BinaryMessage, writesTo, htyp, hl]
              | some b =>
                by_cases hba : b = a
                · simp [TextMessage, BinaryMessage, writesTo, htyp, hba, hl]
                · simp [TextMessage, BinaryMessage, writesTo, htyp, hba, hl]
          · simp [TextMessage, BinaryMessage, writesTo, htyp]
      · simp [hb, ht, writesTo]

/-- The duration cells after one iteration are the cells before it with the assignments of
the iteration replayed. -/
theorem readStep_heap_writes (unmarshal : Bytes → Except String Status) (fCtx : fetchContext)
    (dst : Writer) (r : ReadResult) (m : Mem) :
    (readStep unmarshal fCtx dst r m).mem.heap
      = (readStepWrites unmarshal fCtx r).foldl (fun h w => h.store w.1 w.2) m.heap := by
  cases r with
  | closeError code text =>
    simp only [readStep, readStepWrites]
    split <;> rfl
  | failure err => rfl
  | message messageType body =>
    simp only [readStep, readStepWrites]
    by_cases hb : messageType = BinaryMessage
    · simp only [hb, if_true]
      split <;> rfl
    · by_cases ht : messageType = TextMessage
      · simp only [hb, ht, if_true, if_false]
        cases hdec : unmarshal body with
        | error err => rfl
        | ok status =>
          by_cases htyp : status.Typ = "saveDuration"
          · simp only [htyp, if_true]
            cases hl : mapLookup fCtx.durations status.Tag with
            | none => rfl
            | some p =>
              cases p with
              | none => rfl
              | some b => rfl
          · simp only [htyp, if_false]
            rfl
      · simp only [hb, ht, if_false]
        split <;> rfl

/-- The duration cells after the loop are the cells before it with the assignments of the loop
replayed in order. -/
theorem readLoop_heap_writes (unmarshal : Bytes → Except String Status) (fCtx : fetchContext)
    (dst : Writer) (reads : List ReadResult) (m : Mem) :
    (readLoop unmarshal fCtx dst reads m).2.heap
      = (readLoopWrites unmarshal fCtx dst reads m).foldl (fun h w => h.store w.1 w.2)
          m.heap := by
  induction reads generalizing m with
  | nil => rfl
  | cons r rs ih =>
    have h := readStep_heap_writes unmarshal fCtx dst r m
    simp only [readLoop, readLoopWrites]
    cases hs : readStep unmarshal fCtx dst r m with
    | next m1 =>
      rw [hs] at h
      simp only [List.foldl_append]
      rw [ih m1, ← h]
      rfl
    | done ret m1 =>
      rw [hs] at h
      exact h

/-- The loop assigns cell `a` at most once per read that resolves it. -/
theorem readLoopWrites_le (unmarshal : Bytes → Except String Status) (fCtx : fetchContext)
    (dst : Writer) (reads : List ReadResult) (m : Mem) (a : Nat) :
    (writesTo (readLoopWrites unmarshal fCtx dst reads m) a).length
      ≤ (reads.filter (fun r => (resolvesRead unmarshal fCtx r a).isSome)).length := by
  induction reads generalizing m with
  | nil => simp [readLoopWrites, writesTo]
  | cons r rs ih =>
    have hstep : (writesTo (readStepWrites unmarshal fCtx r) a).length
        = if (resolvesRead unmarshal fCtx r a).isSome then 1 else 0 := by
      rw [writesTo_readStepWrites]
      cases resolvesRead unmarshal fCtx r a <;> simp
    simp only [readLoopWrites]
    cases hs : readStep unmarshal fCtx dst r m with
    | next m1 =>
      have h1 := ih m1
      simp only [writesTo, List.filter_append, List.length_append] at h1 hstep ⊢
      rw [hstep, List.filter_cons]
      split <;> simp <;> omega
    | done ret m1 =>
      simp only [writesTo] at hstep ⊢
      rw [hstep, List.filter_cons]
      split <;> simp

/-- The assignments of a call whose dial and send succeed are those of its read loop. -/
theorem CompileWrites_connected (deps : Deps) (net : Session) (c : Client) (format : Format)
    (ab : AudioBuilder) (dst : Writer) (heap : Heap)
    (hdial : net.dial ("wss://podio.poxate.com/compile?apiKey=" ++ c.apiKey) = .connected)
    (hsend : net.WriteJSON
      (.obj [("format", .str format), ("body", (toJson deps ab ⟨[]⟩ 0).1)]) = none) :
    Client.CompileWrites deps net c format ab dst heap
      = readLoopWrites net.Unmarshal (toJson deps ab ⟨[]⟩ 0).2.1 dst net.reads ⟨[], heap⟩ := by
  unfold Client.CompileWrites
  simp only [hdial, hsend]

/-- A call whose dial or send fails performs no assignment and leaves the cells as they were. -/
theorem CompileWrites_not_connected (deps : Deps) (net : Session) (c : Client)
    (format : Format) (ab : AudioBuilder) (dst : Writer) (heap : Heap)
    (h : ¬ (net.dial ("wss://podio.poxate.com/compile?apiKey=" ++ c.apiKey) = .connected
      ∧ net.WriteJSON
        (.obj [("format", .str format), ("body", (toJson deps ab ⟨[]⟩ 0).1)]) = none)) :
    Client.CompileWrites deps net c format ab dst heap = []
    ∧ (Client.Compile deps net c format ab dst heap).heap = heap := by
  cases hd : net.dial ("wss://podio.poxate.com/compile?apiKey=" ++ c.apiKey) with
  | failed err resp =>
    unfold Client.CompileWrites Client.Compile
    simp [hd]
  | connected =>
    cases hw : net.WriteJSON
        (.obj [("format", .str format), ("body", (toJson deps ab ⟨[]⟩ 0).1)]) with
    | none => exact absurd ⟨hd, hw⟩ h
    | some err =>
      unfold Client.CompileWrites Client.Compile
      simp [hd, hw]

/-- C14, as stated, fails: with the tree `Remote("a").SaveDuration(&d)` and two `saveDuration`
frames carrying the token of that node (durations 5 and 6) before the normal close, the call
returns nil and has written the cell `d` twice. -/
theorem slot_written_twice :
    (Client.Compile sampleDeps
        (sampleSessionOf [.message TextMessage [1, 5], .message TextMessage [1, 6],
          .closeError CloseNormalClosure ""])
        ⟨"key"⟩ MP3 ((Remote "a").SaveDuration (some 0)) sampleWriter (fun _ => 0)).ret
      = .success
    ∧ writesTo (Client.CompileWrites sampleDeps
        (sampleSessionOf [.message TextMessage [1, 5], .message TextMessage [1, 6],
          .closeError CloseNormalClosure ""])
        ⟨"key"⟩ MP3 ((Remote "a").SaveDuration (some 0)) sampleWriter (fun _ => 0)) 0
      = [(0, 5), (0, 6)]
    ∧ ¬ (writesTo (Client.CompileWrites sampleDeps
        (sampleSessionOf [.message TextMessage [1, 5], .message TextMessage [1, 6],
          .closeError CloseNormalClosure ""])
        ⟨"key"⟩ MP3 ((Remote "a").SaveDuration (some 0)) sampleWriter (fun _ => 0)) 0).length
        ≤ 1 := by
  decide

/-- C14, amended: for every tree and every sequence of inbound reads, a `Compile` call writes
to an output cell at most once per inbound `saveDuration` message whose tag the context maps to
that cell, hence at most once when the peer sends at most one such message; and the cells
after the call are the cells before it with these writes replayed in order. -/
theorem Compile_writes_once_per_message (deps : Deps) (net : Session) (c : Client)
    (format : Format) (ab : AudioBuilder) (dst : Writer) (heap : Heap) (a : Nat) :
    (writesTo (Client.CompileWrites deps net c format ab dst heap) a).length
      ≤ (net.reads.filter (fun r =>
          (resolvesRead net.Unmarshal (toJson deps ab ⟨[]⟩ 0).2.1 r a).isSome)).length
    ∧ (Client.Compile deps net c format ab dst heap).heap
      = (Client.CompileWrites deps net c format ab dst heap).foldl
          (fun h w => h.store w.1 w.2) heap := by
  by_cases h : net.dial ("wss://podio.poxate.com/compile?apiKey=" ++ c.apiKey) = .connected
      ∧ net.WriteJSON
        (.obj [("format", .str format), ("body", (toJson deps ab ⟨[]⟩ 0).1)]) = none
  · rw [CompileWrites_connected deps net c format ab dst heap h.1 h.2,
      Compile_connected deps net c format ab dst heap h.1 h.2]
    exact ⟨readLoopWrites_le _ _ _ _ _ a, readLoop_heap_writes _ _ _ _ _⟩
  · obtain ⟨hw, hh⟩ := CompileWrites_not_connected deps net c format ab dst heap h
    rw [hw, hh]
    exact ⟨by simp [writesTo], rfl⟩

/-- C19: when several `saveDuration` messages resolve the same output cell, each one
overwrites the cell without error (the iteration stores the duration and the loop goes on,
whatever the cell held); so after a call that returns nil, having read frames (none of the close
message type) and then the normal close, each cell holds the duration of the last frame that
resolved it, in arrival order, and a cell that no frame resolved holds what it held before the
call. -/
theorem Compile_last_write_wins (deps : Deps) (net : Session) (c : Client) (format : Format)
    (ab : AudioBuilder) (dst : Writer) (heap : Heap) (frames : List (Int × Bytes))
    (text : String) (rest : List ReadResult)
    (hreads : net.reads = frames.map (fun f => ReadResult.message f.1 f.2)
      ++ .closeError CloseNormalClosure text :: rest)
    (hdata : ∀ f ∈ frames, f.1 ≠ CloseMessage)
    (hok : (Client.Compile deps net c format ab dst heap).ret = .success) :
    (∀ (f : Int × Bytes) (a : Nat) (d : Duration) (m : Mem),
        resolves net.Unmarshal (toJson deps ab ⟨[]⟩ 0).2.1 f a = some d →
          readStep net.Unmarshal (toJson deps ab ⟨[]⟩ 0).2.1 dst (.message f.1 f.2) m
            = .next ⟨m.sink, m.heap.store a d⟩)
    ∧ ∀ a : Nat, (Client.Compile deps net c format ab dst heap).heap a
        = ((frames.filterMap
            (fun f => resolves net.Unmarshal (toJson deps ab ⟨[]⟩ 0).2.1 f a)).getLast?).getD
          (heap a) := by
  refine ⟨fun f a d m h => readStep_of_resolves _ _ dst f a d m h, ?_⟩
  intro a
  obtain ⟨hdial, hsend⟩ := Compile_success_connected deps net c format ab dst heap hok
  rw [Compile_connected deps net c format ab dst heap hdial hsend] at hok ⊢
  simp only [hreads] at hok ⊢
  obtain ⟨m1, hpre, hloop⟩ := readLoop_success_prefix net.Unmarshal _ dst frames text rest hdata
    ⟨[], heap⟩ hok
  rw [hloop]
  exact readPrefix_heap _ _ _ frames a ⟨[], heap⟩ m1 hpre

/-- C19 at `x := Remote("a").SaveDuration(&d0)` and the tree
`Concat(x, x, Remote("b").SaveDuration(&d1))`, whose tokens are `x`, `xx` and `xxx`: after the
frames `x -> 5`, `xx -> 6`, `x -> 7` and the normal close, cell `d0` holds 7 and cell `d1`,
which no frame resolved, still holds 40. -/
theorem Compile_last_write_wins_witness :
    (Client.Compile sampleDeps
        (sampleSessionOf [.message TextMessage [1, 5], .message TextMessage [2, 6],
          .message TextMessage [1, 7], .closeError CloseNormalClosure ""])
        ⟨"key"⟩ MP3
        (Concat [(Remote "a").SaveDuration (some 0), (Remote "a").SaveDuration (some 0),
          (Remote "b").SaveDuration (some 1)])
        sampleWriter (fun _ => 40)).heap 0 = 7
    ∧ (Client.Compile sampleDeps
        (sampleSessionOf [.message TextMessage [1, 5], .message TextMessage [2, 6],
          .message TextMessage [1, 7], .closeError CloseNormalClosure ""])
        ⟨"key"⟩ MP3
        (Concat [(Remote "a").SaveDuration (some 0), (Remote "a").SaveDuration (some 0),
          (Remote "b").SaveDuration (some 1)])
        sampleWriter (fun _ => 40)).heap 1 = 40 := by
  have h := (Compile_last_write_wins sampleDeps
    (sampleSessionOf [.message TextMessage [1, 5], .message TextMessage [2, 6],
      .message TextMessage [1, 7], .closeError CloseNormalClosure ""])
    ⟨"key"⟩ MP3
    (Concat [(Remote "a").SaveDuration (some 0), (Remote "a").SaveDuration (some 0),
      (Remote "b").SaveDuration (some 1)])
    sampleWriter (fun _ => 40)
    [(TextMessage, [1, 5]), (TextMessage, [2, 6]), (TextMessage, [1, 7])] "" [] rfl
    (by decide) (by decide)).2
  exact ⟨(h 0).trans (by decide), (h 1).trans (by decide)⟩

/-! ## Serialization: determinism and totality -/

mutual
/-- Two passes over the same tree, from the same state, with generators that agree on the
tokens drawn during the pass, give the same document and the same state. -/
theorem toJson_congr (gen1 gen2 : Nat → String) (sdump : AudioBuilder → String) :
    ∀ (t : AudioBuilder) (ctx : fetchContext) (k : Nat),
      (∀ i, k ≤ i → i < k + t.slots.length → gen1 i = gen2 i) →
      toJson ⟨gen1, sdump⟩ t ctx k = toJson ⟨gen2, sdump⟩ t ctx k
  | .zero, _, _, _ => rfl
  | .remoteBody _, _, _, _ => rfl
  | .loopBody body _, ctx, k, h => by
    rw [toJson_loopBody, toJson_loopBody, toJson_congr gen1 gen2 sdump body ctx k h]
  | .concatBody audios, ctx, k, h => by
    rw [toJson_concatBody, toJson_concatBody,
      toJsonRange_congr gen1 gen2 sdump audios ctx k h]
  | .padLeftBody body _, ctx, k, h => by
    rw [toJson_padLeftBody, toJson_padLeftBody, toJson_congr gen1 gen2 sdump body ctx k h]
  | .padRightBody body _, ctx, k, h => by
    rw [toJson_padRightBody, toJson_padRightBody, toJson_congr gen1 gen2 sdump body ctx k h]
  | .backgroundBody body bg, ctx, k, h => by
    have h1 := toJson_congr gen1 gen2 sdump body ctx k (fun i hi hlt =>
      h i hi (by simp only [AudioBuilder.slots, List.length_append]; omega))
    have hk := toJson_counter ⟨gen2, sdump⟩ body ctx k
    have h2 := toJson_congr gen1 gen2 sdump bg (toJson ⟨gen2, sdump⟩ body ctx k).2.1
      (toJson ⟨gen2, sdump⟩ body ctx k).2.2 (fun i hi hlt =>
        h i (by omega) (by simp only [AudioBuilder.slots, List.length_append]; omega))
    rw [toJson_backgroundBody, toJson_backgroundBody, h1, h2]
  | .volumeBody body _, ctx, k, h => by
    rw [toJson_volumeBody, toJson_volumeBody, toJson_congr gen1 gen2 sdump body ctx k h]
  | .fadeInBody body _, ctx, k, h => by
    rw [toJson_fadeInBody, toJson_fadeInBody, toJson_congr gen1 gen2 sdump body ctx k h]
  | .fadeOutBody body _, ctx, k, h => by
    rw [toJson_fadeOutBody, toJson_fadeOutBody, toJson_congr gen1 gen2 sdump body ctx k h]
  | .saveDurationBody body p, ctx, k, h => by
    have hlen : (AudioBuilder.saveDurationBody body p).slots.length = body.slots.length + 1 := by
      simp [AudioBuilder.slots]
    rw [hlen] at h
    have hk : gen1 k = gen2 k := h k (Nat.le_refl k) (by omega)
    have h1 := toJson_congr gen1 gen2 sdump body ⟨mapAssign ctx.durations (gen2 k) p⟩ (k + 1)
      (fun i hi hlt => h i (by omega) (by omega))
    rw [toJson_saveDurationBody, toJson_saveDurationBody]
    simp only [hk, h1]
/-- The `range` loop with generators that agree on the tokens drawn. -/
theorem toJsonRange_congr (gen1 gen2 : Nat → String) (sdump : AudioBuilder → String) :
    ∀ (audios : List AudioBuilder) (ctx : fetchContext) (k : Nat),
      (∀ i, k ≤ i → i < k + (AudioBuilder.slotsRange audios).length → gen1 i = gen2 i) →
      toJsonRange ⟨gen1, sdump⟩ audios ctx k = toJsonRange ⟨gen2, sdump⟩ audios ctx k
  | [], _, _, _ => rfl
  | v :: vs, ctx, k, h => by
    have h1 := toJson_congr gen1 gen2 sdump v ctx k (fun i hi hlt =>
      h i hi (by simp only [AudioBuilder.slotsRange, List.length_append]; omega))
    have hk := toJson_counter ⟨gen2, sdump⟩ v ctx k
    have h2 := toJsonRange_congr gen1 gen2 sdump vs (toJson ⟨gen2, sdump⟩ v ctx k).2.1
      (toJson ⟨gen2, sdump⟩ v ctx k).2.2 (fun i hi hlt =>
        h i (by omega) (by simp only [AudioBuilder.slotsRange, List.length_append]; omega))
    rw [toJsonRange_cons, toJsonRange_cons, h1, h2]
end

mutual
/-- Two passes over the same tree give documents that are equal once the `duration_ref`
fields are erased, whatever the generators, the contexts and the counters. -/
theorem toJson_eraseRefs (gen1 gen2 : Nat → String) (sdump : AudioBuilder → String) :
    ∀ (t : AudioBuilder) (ctx1 ctx2 : fetchContext) (k1 k2 : Nat),
      (toJson ⟨gen1, sdump⟩ t ctx1 k1).1.eraseRefs = (toJson ⟨gen2, sdump⟩ t ctx2 k2).1.eraseRefs
  | .zero, _, _, _, _ => rfl
  | .remoteBody _, _, _, _, _ => rfl
  | .loopBody body _, ctx1, ctx2, k1, k2 => by
    simp [toJson_loopBody, Json.eraseRefs, Json.eraseRefsObj,
      toJson_eraseRefs gen1 gen2 sdump body ctx1 ctx2 k1 k2]
  | .concatBody audios, ctx1, ctx2, k1, k2 => by
    simp [toJson_concatBody, Json.eraseRefs, Json.eraseRefsObj,
      toJsonRange_eraseRefs gen1 gen2 sdump audios ctx1 ctx2 k1 k2]
  | .padLeftBody body _, ctx1, ctx2, k1, k2 => by
    simp [toJson_padLeftBody, Json.eraseRefs, Json.eraseRefsObj,
      toJson_eraseRefs gen1 gen2 sdump body ctx1 ctx2 k1 k2]
  | .padRightBody body _, ctx1, ctx2, k1, k2 => by
    simp [toJson_padRightBody, Json.eraseRefs, Json.eraseRefsObj,
      toJson_eraseRefs gen1 gen2 sdump body ctx1 ctx2 k1 k2]
  | .backgroundBody body bg, ctx1, ctx2, k1, k2 => by
    simp [toJson_backgroundBody, Json.eraseRefs, Json.eraseRefsObj,
      toJson_eraseRefs gen1 gen2 sdump body ctx1 ctx2 k1 k2,
      toJson_eraseRefs gen1 gen2 sdump bg (toJson ⟨gen1, sdump⟩ body ctx1 k1).2.1
        (toJson ⟨gen2, sdump⟩ body ctx2 k2).2.1 (toJson ⟨gen1, sdump⟩ body ctx1 k1).2.2
        (toJson ⟨gen2, sdump⟩ body ctx2 k2).2.2]
  | .volumeBody body _, ctx1, ctx2, k1, k2 => by
    simp [toJson_volumeBody, Json.eraseRefs, Json.eraseRefsObj,
      toJson_eraseRefs gen1 gen2 sdump body ctx1 ctx2 k1 k2]
  | .fadeInBody body _, ctx1, ctx2, k1, k2 => by
    simp [toJson_fadeInBody, Json.eraseRefs, Json.eraseRefsObj,
      toJson_eraseRefs gen1 gen2 sdump body ctx1 ctx2 k1 k2]
  | .fadeOutBody body _, ctx1, ctx2, k1, k2 => by
    simp [toJson_fadeOutBody, Json.eraseRefs, Json.eraseRefsObj,
      toJson_eraseRefs gen1 gen2 sdump body ctx1 ctx2 k1 k2]
  | .saveDurationBody body p, ctx1, ctx2, k1, k2 => by
    simp [toJson_saveDurationBody, Json.eraseRefs, Json.eraseRefsObj,
      toJson_eraseRefs gen1 gen2 sdump body ⟨mapAssign ctx1.durations (gen1 k1) p⟩
        ⟨mapAssign ctx2.durations (gen2 k2) p⟩ (k1 + 1) (k2 + 1)]
/-- The arrays of two `range` loops over the same trees, the `duration_ref` fields erased. -/
theorem toJsonRange_eraseRefs (gen1 gen2 : Nat → String) (sdump : AudioBuilder → String) :
    ∀ (audios : List AudioBuilder) (ctx1 ctx2 : fetchContext) (k1 k2 : Nat),
      Json.eraseRefsArr (toJsonRange ⟨gen1, sdump⟩ audios ctx1 k1).1
        = Json.eraseRefsArr (toJsonRange ⟨gen2, sdump⟩ audios ctx2 k2).1
  | [], _, _, _, _ => rfl
  | v :: vs, ctx1, ctx2, k1, k2 => by
    simp [toJsonRange_cons, Json.eraseRefsArr,
      toJson_eraseRefs gen1 gen2 sdump v ctx1 ctx2 k1 k2,
      toJsonRange_eraseRefs gen1 gen2 sdump vs (toJson ⟨gen1, sdump⟩ v ctx1 k1).2.1
        (toJson ⟨gen2, sdump⟩ v ctx2 k2).2.1 (toJson ⟨gen1, sdump⟩ v ctx1 k1).2.2
        (toJson ⟨gen2, sdump⟩ v ctx2 k2).2.2]
end

/-- C16: serialization is deterministic apart from the tokens.  Two runs of `toJson` on the
same tree from the same state, given the same sequence of generated tokens, produce equal
documents and equal contexts (and counters); two runs given any token sequences, from any
states, produce documents that are equal once every `duration_ref` field is erased. -/
theorem toJson_deterministic_up_to_tokens (gen1 gen2 : Nat → String)
    (sdump : AudioBuilder → String) (t : AudioBuilder) (ctx ctx2 : fetchContext) (k k2 : Nat) :
    ((∀ i, k ≤ i → i < k + t.slots.length → gen1 i = gen2 i) →
      toJson ⟨gen1, sdump⟩ t ctx k = toJson ⟨gen2, sdump⟩ t ctx k)
    ∧ (toJson ⟨gen1, sdump⟩ t ctx k).1.eraseRefs
        = (toJson ⟨gen2, sdump⟩ t ctx2 k2).1.eraseRefs :=
  ⟨toJson_congr gen1 gen2 sdump t ctx k, toJson_eraseRefs gen1 gen2 sdump t ctx ctx2 k k2⟩

/-- C16 at the scenario tree, with two generators that agree on the one token drawn (`x`) and
differ afterwards: the two runs give the same document and the same context. -/
theorem toJson_deterministic_up_to_tokens_witness :
    toJson ⟨fun i => String.mk (List.replicate (i + 1) 'x'), fun _ => "dump"⟩
        (scenarioTree (some 0)) ⟨[]⟩ 0
      = toJson ⟨fun i => if i = 0 then "x" else "other", fun _ => "dump"⟩
        (scenarioTree (some 0)) ⟨[]⟩ 0 :=
  (toJson_deterministic_up_to_tokens (fun i => String.mk (List.replicate (i + 1) 'x'))
    (fun i => if i = 0 then "x" else "other") (fun _ => "dump") (scenarioTree (some 0))
    ⟨[]⟩ ⟨[]⟩ 0 0).1
    (fun i _ hlt => by
      have hi : i = 0 := by
        have hlen : (scenarioTree (some 0)).slots.length = 1 := rfl
        omega
      subst hi
      rfl)

mutual
/-- The document has one object per node of the tree. -/
theorem toJson_objects (deps : Deps) :
    ∀ (t : AudioBuilder) (ctx : fetchContext) (k : Nat),
      (toJson deps t ctx k).1.objects = t.size
  | .zero, _, _ => by
    simp [toJson, Json.objects, Json.objectsObj, AudioBuilder.size]
  | .remoteBody _, _, _ => by
    simp [toJson, Json.objects, Json.objectsObj, AudioBuilder.size]
  | .loopBody body _, ctx, k => by
    simp [toJson_loopBody, Json.objects, Json.objectsObj, AudioBuilder.size,
      toJson_objects deps body ctx k]
  | .concatBody audios, ctx, k => by
    simp [toJson_concatBody, Json.objects, Json.objectsObj, AudioBuilder.size,
      toJsonRange_objects deps audios ctx k]
  | .padLeftBody body _, ctx, k => by
    simp [toJson_padLeftBody, Json.objects, Json.objectsObj, AudioBuilder.size,
      toJson_objects deps body ctx k]
  | .padRightBody body _, ctx, k => by
    simp [toJson_padRightBody, Json.objects, Json.objectsObj, AudioBuilder.size,
      toJson_objects deps body ctx k]
  | .backgroundBody body bg, ctx, k => by
    simp [toJson_backgroundBody, Json.objects, Json.objectsObj, AudioBuilder.size,
      toJson_objects deps body ctx k,
      toJson_objects deps bg (toJson deps body ctx k).2.1 (toJson deps body ctx k).2.2]
  | .volumeBody body _, ctx, k => by
    simp [toJson_volumeBody, Json.objects, Json.objectsObj, AudioBuilder.size,
      toJson_objects deps body ctx k]
  | .fadeInBody body _, ctx, k => by
    simp [toJson_fadeInBody, Json.objects, Json.objectsObj, AudioBuilder.size,
      toJson_objects deps body ctx k]
  | .fadeOutBody body _, ctx, k => by
    simp [toJson_fadeOutBody, Json.objects, Json.objectsObj, AudioBuilder.size,
      toJson_objects deps body ctx k]
  | .saveDurationBody body p, ctx, k => by
    simp [toJson_saveDurationBody, Json.objects, Json.objectsObj, AudioBuilder.size,
      toJson_objects deps body ⟨mapAssign ctx.durations (deps.NewString k) p⟩ (k + 1)]
/-- The array of the `range` loop has one object per node of the trees. -/
theorem toJsonRange_objects (deps : Deps) :
    ∀ (audios : List AudioBuilder) (ctx : fetchContext) (k : Nat),
      Json.objectsArr (toJsonRange deps audios ctx k).1 = AudioBuilder.sizeRange audios
  | [], _, _ => rfl
  | v :: vs, ctx, k => by
    simp [toJsonRange_cons, Json.objectsArr, AudioBuilder.sizeRange,
      toJson_objects deps v ctx k,
      toJsonRange_objects deps vs (toJson deps v ctx k).2.1 (toJson deps v ctx k).2.2]
end

/-- The root of every document is an object with a `type` field. -/
theorem toJson_has_type (deps : Deps) (t : AudioBuilder) (ctx : fetchContext) (k : Nat) :
    ∃ ty : String, (toJson deps t ctx k).1.field "type" = some (.str ty) := by
  cases t with
  | zero => exact ⟨"unknown", rfl⟩
  | remoteBody url => exact ⟨"remote", rfl⟩
  | loopBody body count => exact ⟨"loop", rfl⟩
  | concatBody audios => exact ⟨"concat", rfl⟩
  | padLeftBody body d => exact ⟨"padLeft", rfl⟩
  | padRightBody body d => exact ⟨"padRight", rfl⟩
  | backgroundBody body bg => exact ⟨"background", rfl⟩
  | volumeBody body v => exact ⟨"volume", rfl⟩
  | fadeInBody body d => exact ⟨"fadeIn", rfl⟩
  | fadeOutBody body d => exact ⟨"fadeOut", rfl⟩
  | saveDurationBody body p => exact ⟨"saveDuration", rfl⟩

/-- C20: `toJson` is total on finite trees.  For every tree, with any count, duration, volume,
depth and `Concat` width, it returns a document (an object with a `type` field; its result type
has no error), having visited every node exactly once per occurrence: the document has one
object per node of the tree and one token was drawn per `SaveDuration` node.  It validates
nothing: any integer count, any duration and any volume is emitted as given. -/
theorem toJson_total (deps : Deps) (t : AudioBuilder) (ctx : fetchContext) (k : Nat) (n : Int)
    (d : Duration) (v : Float) :
    (∃ ty : String, (toJson deps t ctx k).1.field "type" = some (.str ty))
    ∧ (toJson deps t ctx k).1.objects = t.size
    ∧ (toJson deps t ctx k).2.2 = k + t.slots.length
    ∧ (toJson deps (t.Loop n) ctx k).1.field "count" = some (.int n)
    ∧ (toJson deps (t.PadLeft d) ctx k).1.field "duration" = some (.int d)
    ∧ (toJson deps (t.PadRight d) ctx k).1.field "duration" = some (.int d)
    ∧ (toJson deps (t.FadeIn d) ctx k).1.field "duration" = some (.int d)
    ∧ (toJson deps (t.FadeOut d) ctx k).1.field "duration" = some (.int d)
    ∧ (toJson deps (t.Volume v) ctx k).1.field "volume" = some (.float v) :=
  ⟨toJson_has_type deps t ctx k, toJson_objects deps t ctx k, toJson_counter deps t ctx k,
    rfl, rfl, rfl, rfl, rfl, rfl⟩

end Podio
